import Mathlib

/-!
Verification of the qp 9P2000 protocol library.

The development shallowly embeds the Go source of the library: byte slices
become `List Nat` (each element a byte value), the little-endian integer
helpers of nio.go become pure functions, every message variant of the
nread-based revision of the codec becomes a Lean structure with
`marshalBinary` / `unmarshalBinary` / `encodedLength`, the protocol tables of
the three dialects become functions on a closed variant enum, and the
framing encoder / simple decoder / greedy decoder of container.go become
explicit state-passing functions (fuel-based where the Go code loops).

Go's runtime abort on an out-of-range slice expression is modelled
explicitly: decode results live in `DRes`, which distinguishes a successful
decode, a typed error, and a runtime panic.
-/

/-- Errors of the library (container.go and nio.go): `ErrPayloadTooShort`,
`ErrMessageTooBig`, `ErrUnknownMessageType`, and a transport I/O error
(any error returned by the underlying reader/writer, e.g. EOF). -/
inductive QErr where
  | payloadTooShort
  | messageTooBig
  | unknownMessageType
  | ioError
deriving DecidableEq, Repr

/-- Result of running a decode step of the Go code: a value, a typed error,
or a runtime panic (out-of-range slice expression). -/
inductive DRes (α : Type) where
  | ok (a : α)
  | fail (e : QErr)
  | panicked
deriving DecidableEq, Repr

/-- Little-endian 16-bit write: the two bytes produced by
`binary.LittleEndian.PutUint16`. -/
def w16 (v : Nat) : List Nat := [v % 256, v / 256 % 256]

/-- Little-endian 32-bit write (`binary.LittleEndian.PutUint32`). -/
def w32 (v : Nat) : List Nat :=
  [v % 256, v / 256 % 256, v / 65536 % 256, v / 16777216 % 256]

/-- Little-endian 64-bit write (`binary.LittleEndian.PutUint64`). -/
def w64 (v : Nat) : List Nat :=
  [v % 256, v / 256 % 256, v / 65536 % 256, v / 16777216 % 256,
   v / 4294967296 % 256, v / 1099511627776 % 256,
   v / 281474976710656 % 256, v / 72057594037927936 % 256]

/-- Little-endian 16-bit read (`binary.LittleEndian.Uint16`) of the two
bytes at offset `i` of `b`. -/
def r16 (b : List Nat) (i : Nat) : Nat := b.getD i 0 + 256 * b.getD (i + 1) 0

/-- Little-endian 32-bit read (`binary.LittleEndian.Uint32`). -/
def r32 (b : List Nat) (i : Nat) : Nat :=
  b.getD i 0 + 256 * b.getD (i + 1) 0 + 65536 * b.getD (i + 2) 0 +
    16777216 * b.getD (i + 3) 0

/-- Little-endian 64-bit read (`binary.LittleEndian.Uint64`). -/
def r64 (b : List Nat) (i : Nat) : Nat :=
  b.getD i 0 + 256 * b.getD (i + 1) 0 + 65536 * b.getD (i + 2) 0 +
    16777216 * b.getD (i + 3) 0 + 4294967296 * b.getD (i + 4) 0 +
    1099511627776 * b.getD (i + 5) 0 + 281474976710656 * b.getD (i + 6) 0 +
    72057594037927936 * b.getD (i + 7) 0

/-- Go slice expression `b[lo:hi]`: defined when `lo ≤ hi ≤ len(b)`
(for a slice whose capacity equals its length); out of range otherwise,
which aborts the program. -/
def goSlice (b : List Nat) (lo hi : Nat) : Option (List Nat) :=
  if lo ≤ hi ∧ hi ≤ b.length then some ((b.drop lo).take (hi - lo)) else none

@[simp] theorem w16_length (v : Nat) : (w16 v).length = 2 := rfl

@[simp] theorem w32_length (v : Nat) : (w32 v).length = 4 := rfl

@[simp] theorem w64_length (v : Nat) : (w64 v).length = 8 := rfl

/-!
## nio.go: cursor-based primitive codec helpers

Each `nread*` helper takes the byte slice and a cursor, returning either the
decoded value together with the advanced cursor or `ErrPayloadTooShort`; each
`nwrite*` helper appends the encoding to the accumulating slice.
-/

def nreadByte (s : List Nat) (idx : Nat) : Except QErr (Nat × Nat) :=
  if s.length < idx + 1 then .error .payloadTooShort
  else .ok (s.getD idx 0, idx + 1)

def nwriteByte (s : List Nat) (b : Nat) : List Nat := s ++ [b % 256]

def nreadUint16 (s : List Nat) (idx : Nat) : Except QErr (Nat × Nat) :=
  if s.length < idx + 2 then .error .payloadTooShort
  else .ok (r16 s idx, idx + 2)

def nwriteUint16 (s : List Nat) (u : Nat) : List Nat := s ++ w16 u

def nreadUint32 (s : List Nat) (idx : Nat) : Except QErr (Nat × Nat) :=
  if s.length < idx + 4 then .error .payloadTooShort
  else .ok (r32 s idx, idx + 4)

def nwriteUint32 (s : List Nat) (u : Nat) : List Nat := s ++ w32 u

def nreadUint64 (s : List Nat) (idx : Nat) : Except QErr (Nat × Nat) :=
  if s.length < idx + 8 then .error .payloadTooShort
  else .ok (r64 s idx, idx + 8)

def nwriteUint64 (s : List Nat) (u : Nat) : List Nat := s ++ w64 u

/-- `nreadString`: a 2-byte little-endian length followed by that many raw
bytes. Strings are byte strings; no validation is performed. -/
def nreadString (s : List Nat) (idx : Nat) : Except QErr (List Nat × Nat) :=
  if s.length < idx + 2 then .error .payloadTooShort
  else
    let l := r16 s idx
    if s.length < idx + 2 + l then .error .payloadTooShort
    else .ok ((s.drop (idx + 2)).take l, idx + 2 + l)

def nwriteString (s : List Nat) (str : List Nat) : List Nat :=
  s ++ (w16 str.length ++ str)

@[simp] theorem nwriteByte_length (s : List Nat) (b : Nat) :
    (nwriteByte s b).length = s.length + 1 := by
  simp [nwriteByte]

@[simp] theorem nwriteUint16_length (s : List Nat) (u : Nat) :
    (nwriteUint16 s u).length = s.length + 2 := by
  simp [nwriteUint16]

@[simp] theorem nwriteUint32_length (s : List Nat) (u : Nat) :
    (nwriteUint32 s u).length = s.length + 4 := by
  simp [nwriteUint32]

@[simp] theorem nwriteUint64_length (s : List Nat) (u : Nat) :
    (nwriteUint64 s u).length = s.length + 8 := by
  simp [nwriteUint64]

@[simp] theorem nwriteString_length (s str : List Nat) :
    (nwriteString s str).length = s.length + 2 + str.length := by
  simp [nwriteString, Nat.add_assoc]

/-- `nreadTag` (a Tag is a uint16). -/
def nreadTag (s : List Nat) (idx : Nat) : Except QErr (Nat × Nat) :=
  nreadUint16 s idx

def nwriteTag (s : List Nat) (t : Nat) : List Nat := nwriteUint16 s t

/-- `nreadFid` (a Fid is a uint32). -/
def nreadFid (s : List Nat) (idx : Nat) : Except QErr (Nat × Nat) :=
  nreadUint32 s idx

def nwriteFid (s : List Nat) (t : Nat) : List Nat := nwriteUint32 s t

/-- `nreadOpenMode` (an OpenMode is a byte). -/
def nreadOpenMode (s : List Nat) (idx : Nat) : Except QErr (Nat × Nat) :=
  nreadByte s idx

def nwriteOpenMode (s : List Nat) (o : Nat) : List Nat := nwriteByte s o

/-- `nreadQidType` (a QidType is a byte). -/
def nreadQidType (s : List Nat) (idx : Nat) : Except QErr (Nat × Nat) :=
  nreadByte s idx

def nwriteQidType (s : List Nat) (q : Nat) : List Nat := nwriteByte s q

/-- `nreadFileMode` (a FileMode is a uint32). -/
def nreadFileMode (s : List Nat) (idx : Nat) : Except QErr (Nat × Nat) :=
  nreadUint32 s idx

def nwriteFileMode (s : List Nat) (f : Nat) : List Nat := nwriteUint32 s f

@[simp] theorem nwriteTag_length (s : List Nat) (t : Nat) :
    (nwriteTag s t).length = s.length + 2 := by
  simp [nwriteTag]

@[simp] theorem nwriteFid_length (s : List Nat) (t : Nat) :
    (nwriteFid s t).length = s.length + 4 := by
  simp [nwriteFid]

@[simp] theorem nwriteOpenMode_length (s : List Nat) (o : Nat) :
    (nwriteOpenMode s o).length = s.length + 1 := by
  simp [nwriteOpenMode]

@[simp] theorem nwriteQidType_length (s : List Nat) (q : Nat) :
    (nwriteQidType s q).length = s.length + 1 := by
  simp [nwriteQidType]

@[simp] theorem nwriteFileMode_length (s : List Nat) (f : Nat) :
    (nwriteFileMode s f).length = s.length + 4 := by
  simp [nwriteFileMode]

/-!
## Support structures (nread-based revision of 9p.go)

`Qid` is a fixed 13-byte block; `Stat` is a self-sized directory entry with
a leading 2-byte inner size that excludes itself. Go strings are embedded as
byte lists.
-/

/-- Qid: server-side unique file identifier (`type[1] version[4] path[8]`). -/
structure Qid where
  type : Nat
  version : Nat
  path : Nat
deriving DecidableEq, Repr

def Qid.encodedLength (_ : Qid) : Nat := 13

def Qid.unmarshalBinary (b : List Nat) : DRes Qid :=
  match nreadByte b 0 with
  | .error e => .fail e
  | .ok (t, idx) =>
    match nreadUint32 b idx with
    | .error e => .fail e
    | .ok (v, idx) =>
      match nreadUint64 b idx with
      | .error e => .fail e
      | .ok (p, _) => .ok ⟨t, v, p⟩

def Qid.marshalBinary (q : Qid) : List Nat :=
  nwriteUint64 (nwriteUint32 (nwriteByte [] q.type) q.version) q.path

/-- Stat: directory entry (`size[2] type[2] dev[4] qid[13] mode[4] atime[4]
mtime[4] length[8] name[s] uid[s] gid[s] muid[s]`). -/
structure Stat where
  type : Nat
  dev : Nat
  qid : Qid
  mode : Nat
  atime : Nat
  mtime : Nat
  length : Nat
  name : List Nat
  uid : List Nat
  gid : List Nat
  muid : List Nat
deriving DecidableEq, Repr

def Stat.encodedLength (s : Stat) : Nat :=
  2 + 2 + 4 + 13 + 4 + 4 + 4 + 8 + 8 + s.name.length + s.uid.length +
    s.gid.length + s.muid.length

/-- Stat decode of the nread-based revision: the leading inner size is read
and its value discarded. -/
def Stat.unmarshalBinary (b : List Nat) : DRes Stat :=
  match nreadUint16 b 0 with
  | .error e => .fail e
  | .ok (_, idx) =>
    match nreadUint16 b idx with
    | .error e => .fail e
    | .ok (ty, idx) =>
      match nreadUint32 b idx with
      | .error e => .fail e
      | .ok (dev, idx) =>
        match nreadByte b idx with
        | .error e => .fail e
        | .ok (qt, idx) =>
          match nreadUint32 b idx with
          | .error e => .fail e
          | .ok (qv, idx) =>
            match nreadUint64 b idx with
            | .error e => .fail e
            | .ok (qp, idx) =>
              match nreadUint32 b idx with
              | .error e => .fail e
              | .ok (mode, idx) =>
                match nreadUint32 b idx with
                | .error e => .fail e
                | .ok (at_, idx) =>
                  match nreadUint32 b idx with
                  | .error e => .fail e
                  | .ok (mt, idx) =>
                    match nreadUint64 b idx with
                    | .error e => .fail e
                    | .ok (len, idx) =>
                      match nreadString b idx with
                      | .error e => .fail e
                      | .ok (nm, idx) =>
                        match nreadString b idx with
                        | .error e => .fail e
                        | .ok (uid, idx) =>
                          match nreadString b idx with
                          | .error e => .fail e
                          | .ok (gid, idx) =>
                            match nreadString b idx with
                            | .error e => .fail e
                            | .ok (muid, _) =>
                              .ok ⟨ty, dev, ⟨qt, qv, qp⟩, mode, at_, mt, len,
                                nm, uid, gid, muid⟩

/-- Stat encode of the nread-based revision: a 2-byte slot is allocated, the
fields are appended, and the inner size (total minus 2) is written into the
leading slot. -/
def Stat.marshalBinary (s : Stat) : List Nat :=
  let l := 2 + 2 + 4 + 13 + 4 + 4 + 4 + 8 + 8 + s.name.length + s.uid.length +
    s.gid.length + s.muid.length
  nwriteString (nwriteString (nwriteString (nwriteString
    (nwriteUint64 (nwriteUint32 (nwriteUint32 (nwriteFileMode
      (nwriteUint64 (nwriteUint32 (nwriteQidType (nwriteUint32 (nwriteUint16
        (w16 (l - 2)) s.type) s.dev) s.qid.type) s.qid.version) s.qid.path)
      s.mode) s.atime) s.mtime) s.length) s.name) s.uid) s.gid) s.muid

/-!
## Message variants (nread-based revision, src/unnamed/part_004)

Each variant is a structure with `encodedLength`, `unmarshalBinary`
and `marshalBinary` translated from its Go methods. Where the Go decoder
slices the input without a bounds check (`b[idx : idx+13]` around an
embedded Qid or Stat), the slice is modelled by `goSlice` and an
out-of-range slice yields `DRes.panicked`.
-/

/-- Helper loop of `WalkRequest.UnmarshalBinary` (and the `.e` name vectors):
read `n` length-prefixed strings in order. -/
def nreadStrings (b : List Nat) (idx : Nat) :
    Nat → Except QErr (List (List Nat) × Nat)
  | 0 => .ok ([], idx)
  | n + 1 =>
    match nreadString b idx with
    | .error e => .error e
    | .ok (s, idx') =>
      match nreadStrings b idx' n with
      | .error e => .error e
      | .ok (rest, idx'') => .ok (s :: rest, idx'')

/-- Helper loop of `WalkResponse.UnmarshalBinary`: unmarshal `n` Qids from
consecutive 13-byte slices (`b[idx : idx+13]`, advancing 13 per element). -/
def nreadQids (b : List Nat) (idx : Nat) : Nat → DRes (List Qid × Nat)
  | 0 => .ok ([], idx)
  | n + 1 =>
    match goSlice b idx (idx + 13) with
    | none => .panicked
    | some sub =>
      match Qid.unmarshalBinary sub with
      | .fail e => .fail e
      | .panicked => .panicked
      | .ok q =>
        match nreadQids b (idx + 13) n with
        | .fail e => .fail e
        | .panicked => .panicked
        | .ok (qs, idx') => .ok (q :: qs, idx')

/-- VersionRequest: `tag[2] msize[4] version[s]`. -/
structure VersionRequest where
  tag : Nat
  maxSize : Nat
  version : List Nat
deriving DecidableEq, Repr

def VersionRequest.encodedLength (vr : VersionRequest) : Nat :=
  2 + 4 + 2 + vr.version.length

def VersionRequest.unmarshalBinary (b : List Nat) : DRes VersionRequest :=
  match nreadTag b 0 with
  | .error e => .fail e
  | .ok (tag, idx) =>
    match nreadUint32 b idx with
    | .error e => .fail e
    | .ok (ms, idx) =>
      match nreadString b idx with
      | .error e => .fail e
      | .ok (v, _) => .ok ⟨tag, ms, v⟩

def VersionRequest.marshalBinary (vr : VersionRequest) : List Nat :=
  nwriteString (nwriteUint32 (nwriteTag [] vr.tag) vr.maxSize) vr.version

/-- VersionResponse: `tag[2] msize[4] version[s]`. -/
structure VersionResponse where
  tag : Nat
  maxSize : Nat
  version : List Nat
deriving DecidableEq, Repr

def VersionResponse.encodedLength (vr : VersionResponse) : Nat :=
  2 + 4 + 2 + vr.version.length

def VersionResponse.unmarshalBinary (b : List Nat) : DRes VersionResponse :=
  match nreadTag b 0 with
  | .error e => .fail e
  | .ok (tag, idx) =>
    match nreadUint32 b idx with
    | .error e => .fail e
    | .ok (ms, idx) =>
      match nreadString b idx with
      | .error e => .fail e
      | .ok (v, _) => .ok ⟨tag, ms, v⟩

def VersionResponse.marshalBinary (vr : VersionResponse) : List Nat :=
  nwriteString (nwriteUint32 (nwriteTag [] vr.tag) vr.maxSize) vr.version

/-- AuthRequest: `tag[2] afid[4] uname[s] aname[s]`. -/
structure AuthRequest where
  tag : Nat
  authFid : Nat
  username : List Nat
  service : List Nat
deriving DecidableEq, Repr

def AuthRequest.encodedLength (ar : AuthRequest) : Nat :=
  2 + 4 + 2 + ar.username.length + 2 + ar.service.length

def AuthRequest.unmarshalBinary (b : List Nat) : DRes AuthRequest :=
  match nreadTag b 0 with
  | .error e => .fail e
  | .ok (tag, idx) =>
    match nreadFid b idx with
    | .error e => .fail e
    | .ok (afid, idx) =>
      match nreadString b idx with
      | .error e => .fail e
      | .ok (u, idx) =>
        match nreadString b idx with
        | .error e => .fail e
        | .ok (s, _) => .ok ⟨tag, afid, u, s⟩

def AuthRequest.marshalBinary (ar : AuthRequest) : List Nat :=
  nwriteString (nwriteString (nwriteFid (nwriteTag [] ar.tag) ar.authFid)
    ar.username) ar.service

/-- AuthResponse: `tag[2] aqid[13]`. The Go decoder hands
`b[idx : idx+13]` to the Qid unmarshal without a preceding bounds check. -/
structure AuthResponse where
  tag : Nat
  authQid : Qid
deriving DecidableEq, Repr

def AuthResponse.encodedLength (_ : AuthResponse) : Nat := 2 + 13

def AuthResponse.unmarshalBinary (b : List Nat) : DRes AuthResponse :=
  match nreadTag b 0 with
  | .error e => .fail e
  | .ok (tag, idx) =>
    match goSlice b idx (idx + 13) with
    | none => .panicked
    | some sub =>
      match Qid.unmarshalBinary sub with
      | .fail e => .fail e
      | .panicked => .panicked
      | .ok q => .ok ⟨tag, q⟩

def AuthResponse.marshalBinary (ar : AuthResponse) : List Nat :=
  nwriteTag [] ar.tag ++ ar.authQid.marshalBinary

/-- AttachRequest: `tag[2] fid[4] afid[4] uname[s] aname[s]`. -/
structure AttachRequest where
  tag : Nat
  fid : Nat
  authFid : Nat
  username : List Nat
  service : List Nat
deriving DecidableEq, Repr

def AttachRequest.encodedLength (ar : AttachRequest) : Nat :=
  2 + 4 + 4 + 2 + ar.username.length + 2 + ar.service.length

def AttachRequest.unmarshalBinary (b : List Nat) : DRes AttachRequest :=
  match nreadTag b 0 with
  | .error e => .fail e
  | .ok (tag, idx) =>
    match nreadFid b idx with
    | .error e => .fail e
    | .ok (fid, idx) =>
      match nreadFid b idx with
      | .error e => .fail e
      | .ok (afid, idx) =>
        match nreadString b idx with
        | .error e => .fail e
        | .ok (u, idx) =>
          match nreadString b idx with
          | .error e => .fail e
          | .ok (s, _) => .ok ⟨tag, fid, afid, u, s⟩

def AttachRequest.marshalBinary (ar : AttachRequest) : List Nat :=
  nwriteString (nwriteString (nwriteFid (nwriteFid (nwriteTag [] ar.tag)
    ar.fid) ar.authFid) ar.username) ar.service

/-- AttachResponse: `tag[2] qid[13]`, unchecked `b[idx : idx+13]` slice. -/
structure AttachResponse where
  tag : Nat
  qid : Qid
deriving DecidableEq, Repr

def AttachResponse.encodedLength (_ : AttachResponse) : Nat := 2 + 13

def AttachResponse.unmarshalBinary (b : List Nat) : DRes AttachResponse :=
  match nreadTag b 0 with
  | .error e => .fail e
  | .ok (tag, idx) =>
    match goSlice b idx (idx + 13) with
    | none => .panicked
    | some sub =>
      match Qid.unmarshalBinary sub with
      | .fail e => .fail e
      | .panicked => .panicked
      | .ok q => .ok ⟨tag, q⟩

def AttachResponse.marshalBinary (ar : AttachResponse) : List Nat :=
  nwriteTag [] ar.tag ++ ar.qid.marshalBinary

/-- ErrorResponse: `tag[2] ename[s]`. -/
structure ErrorResponse where
  tag : Nat
  error : List Nat
deriving DecidableEq, Repr

def ErrorResponse.encodedLength (er : ErrorResponse) : Nat :=
  2 + 2 + er.error.length

def ErrorResponse.unmarshalBinary (b : List Nat) : DRes ErrorResponse :=
  match nreadTag b 0 with
  | .error e => .fail e
  | .ok (tag, idx) =>
    match nreadString b idx with
    | .error e => .fail e
    | .ok (s, _) => .ok ⟨tag, s⟩

def ErrorResponse.marshalBinary (er : ErrorResponse) : List Nat :=
  nwriteString (nwriteTag [] er.tag) er.error

/-- FlushRequest: `tag[2] oldtag[2]`. -/
structure FlushRequest where
  tag : Nat
  oldTag : Nat
deriving DecidableEq, Repr

def FlushRequest.encodedLength (_ : FlushRequest) : Nat := 2 + 2

def FlushRequest.unmarshalBinary (b : List Nat) : DRes FlushRequest :=
  match nreadTag b 0 with
  | .error e => .fail e
  | .ok (tag, idx) =>
    match nreadTag b idx with
    | .error e => .fail e
    | .ok (ot, _) => .ok ⟨tag, ot⟩

def FlushRequest.marshalBinary (fr : FlushRequest) : List Nat :=
  nwriteTag (nwriteTag [] fr.tag) fr.oldTag

/-- FlushResponse: `tag[2]`. -/
structure FlushResponse where
  tag : Nat
deriving DecidableEq, Repr

def FlushResponse.encodedLength (_ : FlushResponse) : Nat := 2

def FlushResponse.unmarshalBinary (b : List Nat) : DRes FlushResponse :=
  match nreadTag b 0 with
  | .error e => .fail e
  | .ok (tag, _) => .ok ⟨tag⟩

def FlushResponse.marshalBinary (fr : FlushResponse) : List Nat :=
  nwriteTag [] fr.tag

/-- WalkRequest: `tag[2] fid[4] newfid[4] nwname[2] nwname*(wname[s])`. -/
structure WalkRequest where
  tag : Nat
  fid : Nat
  newFid : Nat
  names : List (List Nat)
deriving DecidableEq, Repr

def WalkRequest.encodedLength (wr : WalkRequest) : Nat :=
  2 + 4 + 4 + 2 + (wr.names.map (fun n => 2 + n.length)).sum

def WalkRequest.unmarshalBinary (b : List Nat) : DRes WalkRequest :=
  match nreadTag b 0 with
  | .error e => .fail e
  | .ok (tag, idx) =>
    match nreadFid b idx with
    | .error e => .fail e
    | .ok (fid, idx) =>
      match nreadFid b idx with
      | .error e => .fail e
      | .ok (nfid, idx) =>
        match nreadUint16 b idx with
        | .error e => .fail e
        | .ok (l, idx) =>
          match nreadStrings b idx l with
          | .error e => .fail e
          | .ok (ns, _) => .ok ⟨tag, fid, nfid, ns⟩

def WalkRequest.marshalBinary (wr : WalkRequest) : List Nat :=
  wr.names.foldl nwriteString
    (nwriteUint16 (nwriteFid (nwriteFid (nwriteTag [] wr.tag) wr.fid)
      wr.newFid) wr.names.length)

/-- WalkResponse: `tag[2] nwqid[2] nwqid*(wqid[13])`. -/
structure WalkResponse where
  tag : Nat
  qids : List Qid
deriving DecidableEq, Repr

def WalkResponse.encodedLength (wr : WalkResponse) : Nat :=
  2 + 2 + 13 * wr.qids.length

def WalkResponse.unmarshalBinary (b : List Nat) : DRes WalkResponse :=
  match nreadTag b 0 with
  | .error e => .fail e
  | .ok (tag, idx) =>
    match nreadUint16 b idx with
    | .error e => .fail e
    | .ok (l, idx) =>
      match nreadQids b idx l with
      | .fail e => .fail e
      | .panicked => .panicked
      | .ok (qs, _) => .ok ⟨tag, qs⟩

def WalkResponse.marshalBinary (wr : WalkResponse) : List Nat :=
  wr.qids.foldl (fun b q => b ++ q.marshalBinary)
    (nwriteUint16 (nwriteTag [] wr.tag) wr.qids.length)

/-- OpenRequest: `tag[2] fid[4] mode[1]`. -/
structure OpenRequest where
  tag : Nat
  fid : Nat
  mode : Nat
deriving DecidableEq, Repr

def OpenRequest.encodedLength (_ : OpenRequest) : Nat := 2 + 4 + 1

def OpenRequest.unmarshalBinary (b : List Nat) : DRes OpenRequest :=
  match nreadTag b 0 with
  | .error e => .fail e
  | .ok (tag, idx) =>
    match nreadFid b idx with
    | .error e => .fail e
    | .ok (fid, idx) =>
      match nreadOpenMode b idx with
      | .error e => .fail e
      | .ok (m, _) => .ok ⟨tag, fid, m⟩

def OpenRequest.marshalBinary (or_ : OpenRequest) : List Nat :=
  nwriteOpenMode (nwriteFid (nwriteTag [] or_.tag) or_.fid) or_.mode

/-- OpenResponse: `tag[2] qid[13] iounit[4]`, unchecked Qid slice. -/
structure OpenResponse where
  tag : Nat
  qid : Qid
  iounit : Nat
deriving DecidableEq, Repr

def OpenResponse.encodedLength (_ : OpenResponse) : Nat := 2 + 13 + 4

def OpenResponse.unmarshalBinary (b : List Nat) : DRes OpenResponse :=
  match nreadTag b 0 with
  | .error e => .fail e
  | .ok (tag, idx) =>
    match goSlice b idx (idx + 13) with
    | none => .panicked
    | some sub =>
      match Qid.unmarshalBinary sub with
      | .fail e => .fail e
      | .panicked => .panicked
      | .ok q =>
        match nreadUint32 b (idx + 13) with
        | .error e => .fail e
        | .ok (io, _) => .ok ⟨tag, q, io⟩

def OpenResponse.marshalBinary (or_ : OpenResponse) : List Nat :=
  nwriteUint32 (nwriteTag [] or_.tag ++ or_.qid.marshalBinary) or_.iounit

/-- CreateRequest: `tag[2] fid[4] name[s] perm[4] mode[1]`. -/
structure CreateRequest where
  tag : Nat
  fid : Nat
  name : List Nat
  permissions : Nat
  mode : Nat
deriving DecidableEq, Repr

def CreateRequest.encodedLength (cr : CreateRequest) : Nat :=
  2 + 4 + 2 + cr.name.length + 4 + 1

def CreateRequest.unmarshalBinary (b : List Nat) : DRes CreateRequest :=
  match nreadTag b 0 with
  | .error e => .fail e
  | .ok (tag, idx) =>
    match nreadFid b idx with
    | .error e => .fail e
    | .ok (fid, idx) =>
      match nreadString b idx with
      | .error e => .fail e
      | .ok (nm, idx) =>
        match nreadFileMode b idx with
        | .error e => .fail e
        | .ok (perm, idx) =>
          match nreadOpenMode b idx with
          | .error e => .fail e
          | .ok (m, _) => .ok ⟨tag, fid, nm, perm, m⟩

def CreateRequest.marshalBinary (cr : CreateRequest) : List Nat :=
  nwriteOpenMode (nwriteFileMode (nwriteString (nwriteFid (nwriteTag []
    cr.tag) cr.fid) cr.name) cr.permissions) cr.mode

/-- CreateResponse: `tag[2] qid[13] iounit[4]`, unchecked Qid slice. -/
structure CreateResponse where
  tag : Nat
  qid : Qid
  iounit : Nat
deriving DecidableEq, Repr

def CreateResponse.encodedLength (_ : CreateResponse) : Nat := 2 + 13 + 4

def CreateResponse.unmarshalBinary (b : List Nat) : DRes CreateResponse :=
  match nreadTag b 0 with
  | .error e => .fail e
  | .ok (tag, idx) =>
    match goSlice b idx (idx + 13) with
    | none => .panicked
    | some sub =>
      match Qid.unmarshalBinary sub with
      | .fail e => .fail e
      | .panicked => .panicked
      | .ok q =>
        match nreadUint32 b (idx + 13) with
        | .error e => .fail e
        | .ok (io, _) => .ok ⟨tag, q, io⟩

def CreateResponse.marshalBinary (cr : CreateResponse) : List Nat :=
  nwriteUint32 (nwriteTag [] cr.tag ++ cr.qid.marshalBinary) cr.iounit

/-- ReadRequest: `tag[2] fid[4] offset[8] count[4]`. -/
structure ReadRequest where
  tag : Nat
  fid : Nat
  offset : Nat
  count : Nat
deriving DecidableEq, Repr

def ReadRequest.encodedLength (_ : ReadRequest) : Nat := 2 + 4 + 8 + 4

def ReadRequest.unmarshalBinary (b : List Nat) : DRes ReadRequest :=
  match nreadTag b 0 with
  | .error e => .fail e
  | .ok (tag, idx) =>
    match nreadFid b idx with
    | .error e => .fail e
    | .ok (fid, idx) =>
      match nreadUint64 b idx with
      | .error e => .fail e
      | .ok (off, idx) =>
        match nreadUint32 b idx with
        | .error e => .fail e
        | .ok (c, _) => .ok ⟨tag, fid, off, c⟩

def ReadRequest.marshalBinary (rr : ReadRequest) : List Nat :=
  nwriteUint32 (nwriteUint64 (nwriteFid (nwriteTag [] rr.tag) rr.fid)
    rr.offset) rr.count

/-- ReadResponse: `tag[2] count[4] data[count]`; the data read is
bounds-checked before the copy. -/
structure ReadResponse where
  tag : Nat
  data : List Nat
deriving DecidableEq, Repr

def ReadResponse.encodedLength (rr : ReadResponse) : Nat :=
  2 + 4 + rr.data.length

def ReadResponse.unmarshalBinary (b : List Nat) : DRes ReadResponse :=
  match nreadTag b 0 with
  | .error e => .fail e
  | .ok (tag, idx) =>
    match nreadUint32 b idx with
    | .error e => .fail e
    | .ok (l, idx) =>
      if b.length < l + idx then .fail .payloadTooShort
      else .ok ⟨tag, (b.drop idx).take l⟩

def ReadResponse.marshalBinary (rr : ReadResponse) : List Nat :=
  nwriteUint32 (nwriteTag [] rr.tag) rr.data.length ++ rr.data

/-- WriteRequest: `tag[2] fid[4] offset[8] count[4] data[count]`. -/
structure WriteRequest where
  tag : Nat
  fid : Nat
  offset : Nat
  data : List Nat
deriving DecidableEq, Repr

def WriteRequest.encodedLength (wr : WriteRequest) : Nat :=
  2 + 4 + 8 + 4 + wr.data.length

def WriteRequest.unmarshalBinary (b : List Nat) : DRes WriteRequest :=
  match nreadTag b 0 with
  | .error e => .fail e
  | .ok (tag, idx) =>
    match nreadFid b idx with
    | .error e => .fail e
    | .ok (fid, idx) =>
      match nreadUint64 b idx with
      | .error e => .fail e
      | .ok (off, idx) =>
        match nreadUint32 b idx with
        | .error e => .fail e
        | .ok (l, idx) =>
          if b.length < l + idx then .fail .payloadTooShort
          else .ok ⟨tag, fid, off, (b.drop idx).take l⟩

def WriteRequest.marshalBinary (wr : WriteRequest) : List Nat :=
  nwriteUint32 (nwriteUint64 (nwriteFid (nwriteTag [] wr.tag) wr.fid)
    wr.offset) wr.data.length ++ wr.data

/-- WriteResponse: `tag[2] count[4]`. -/
structure WriteResponse where
  tag : Nat
  count : Nat
deriving DecidableEq, Repr

def WriteResponse.encodedLength (_ : WriteResponse) : Nat := 2 + 4

def WriteResponse.unmarshalBinary (b : List Nat) : DRes WriteResponse :=
  match nreadTag b 0 with
  | .error e => .fail e
  | .ok (tag, idx) =>
    match nreadUint32 b idx with
    | .error e => .fail e
    | .ok (c, _) => .ok ⟨tag, c⟩

def WriteResponse.marshalBinary (wr : WriteResponse) : List Nat :=
  nwriteUint32 (nwriteTag [] wr.tag) wr.count

/-- ClunkRequest: `tag[2] fid[4]`. -/
structure ClunkRequest where
  tag : Nat
  fid : Nat
deriving DecidableEq, Repr

def ClunkRequest.encodedLength (_ : ClunkRequest) : Nat := 2 + 4

def ClunkRequest.unmarshalBinary (b : List Nat) : DRes ClunkRequest :=
  match nreadTag b 0 with
  | .error e => .fail e
  | .ok (tag, idx) =>
    match nreadFid b idx with
    | .error e => .fail e
    | .ok (fid, _) => .ok ⟨tag, fid⟩

def ClunkRequest.marshalBinary (cr : ClunkRequest) : List Nat :=
  nwriteFid (nwriteTag [] cr.tag) cr.fid

/-- ClunkResponse: `tag[2]`. -/
structure ClunkResponse where
  tag : Nat
deriving DecidableEq, Repr

def ClunkResponse.encodedLength (_ : ClunkResponse) : Nat := 2

def ClunkResponse.unmarshalBinary (b : List Nat) : DRes ClunkResponse :=
  match nreadTag b 0 with
  | .error e => .fail e
  | .ok (tag, _) => .ok ⟨tag⟩

def ClunkResponse.marshalBinary (cr : ClunkResponse) : List Nat :=
  nwriteTag [] cr.tag

/-- RemoveRequest: `tag[2] fid[4]`. -/
structure RemoveRequest where
  tag : Nat
  fid : Nat
deriving DecidableEq, Repr

def RemoveRequest.encodedLength (_ : RemoveRequest) : Nat := 2 + 4

def RemoveRequest.unmarshalBinary (b : List Nat) : DRes RemoveRequest :=
  match nreadTag b 0 with
  | .error e => .fail e
  | .ok (tag, idx) =>
    match nreadFid b idx with
    | .error e => .fail e
    | .ok (fid, _) => .ok ⟨tag, fid⟩

def RemoveRequest.marshalBinary (rr : RemoveRequest) : List Nat :=
  nwriteFid (nwriteTag [] rr.tag) rr.fid

/-- RemoveResponse: `tag[2]`. -/
structure RemoveResponse where
  tag : Nat
deriving DecidableEq, Repr

def RemoveResponse.encodedLength (_ : RemoveResponse) : Nat := 2

def RemoveResponse.unmarshalBinary (b : List Nat) : DRes RemoveResponse :=
  match nreadTag b 0 with
  | .error e => .fail e
  | .ok (tag, _) => .ok ⟨tag⟩

def RemoveResponse.marshalBinary (rr : RemoveResponse) : List Nat :=
  nwriteTag [] rr.tag

/-- StatRequest: `tag[2] fid[4]`. -/
structure StatRequest where
  tag : Nat
  fid : Nat
deriving DecidableEq, Repr

def StatRequest.encodedLength (_ : StatRequest) : Nat := 2 + 4

def StatRequest.unmarshalBinary (b : List Nat) : DRes StatRequest :=
  match nreadTag b 0 with
  | .error e => .fail e
  | .ok (tag, idx) =>
    match nreadFid b idx with
    | .error e => .fail e
    | .ok (fid, _) => .ok ⟨tag, fid⟩

def StatRequest.marshalBinary (sr : StatRequest) : List Nat :=
  nwriteFid (nwriteTag [] sr.tag) sr.fid

/-- StatResponse: `tag[2] stat[n]`. The outer 2-byte length is read and
used only to slice the embedded Stat (`b[idx : idx+int(l)]`, unchecked). -/
structure StatResponse where
  tag : Nat
  stat : Stat
deriving DecidableEq, Repr

def StatResponse.encodedLength (sr : StatResponse) : Nat :=
  2 + 2 + sr.stat.encodedLength

def StatResponse.unmarshalBinary (b : List Nat) : DRes StatResponse :=
  match nreadTag b 0 with
  | .error e => .fail e
  | .ok (tag, idx) =>
    match nreadUint16 b idx with
    | .error e => .fail e
    | .ok (l, idx) =>
      match goSlice b idx (idx + l) with
      | none => .panicked
      | some sub =>
        match Stat.unmarshalBinary sub with
        | .fail e => .fail e
        | .panicked => .panicked
        | .ok st => .ok ⟨tag, st⟩

def StatResponse.marshalBinary (sr : StatResponse) : List Nat :=
  let x := sr.stat.marshalBinary
  nwriteUint16 (nwriteTag [] sr.tag) x.length ++ x

/-- WriteStatRequest: `tag[2] fid[4] stat[n]`, unchecked Stat slice. -/
structure WriteStatRequest where
  tag : Nat
  fid : Nat
  stat : Stat
deriving DecidableEq, Repr

def WriteStatRequest.encodedLength (wsr : WriteStatRequest) : Nat :=
  2 + 4 + 2 + wsr.stat.encodedLength

def WriteStatRequest.unmarshalBinary (b : List Nat) : DRes WriteStatRequest :=
  match nreadTag b 0 with
  | .error e => .fail e
  | .ok (tag, idx) =>
    match nreadFid b idx with
    | .error e => .fail e
    | .ok (fid, idx) =>
      match nreadUint16 b idx with
      | .error e => .fail e
      | .ok (l, idx) =>
        match goSlice b idx (idx + l) with
        | none => .panicked
        | some sub =>
          match Stat.unmarshalBinary sub with
          | .fail e => .fail e
          | .panicked => .panicked
          | .ok st => .ok ⟨tag, fid, st⟩

def WriteStatRequest.marshalBinary (wsr : WriteStatRequest) : List Nat :=
  let x := wsr.stat.marshalBinary
  nwriteUint16 (nwriteFid (nwriteTag [] wsr.tag) wsr.fid) x.length ++ x

/-- WriteStatResponse: `tag[2]`. -/
structure WriteStatResponse where
  tag : Nat
deriving DecidableEq, Repr

def WriteStatResponse.encodedLength (_ : WriteStatResponse) : Nat := 2

def WriteStatResponse.unmarshalBinary (b : List Nat) : DRes WriteStatResponse :=
  match nreadTag b 0 with
  | .error e => .fail e
  | .ok (tag, _) => .ok ⟨tag⟩

def WriteStatResponse.marshalBinary (wsr : WriteStatResponse) : List Nat :=
  nwriteTag [] wsr.tag

/-!
## Stream-based helpers (container.go read*/write* family)

The `.u` messages of 9pdotu.go and the `.e` messages of the stream revision
of 9pdote.go decode from an `io.Reader` and encode to an `io.Writer`. The
reader is modelled as the list of bytes still to come (a short read is the
transport error `ioError`); the writer is modelled by the list of bytes a
successful encode emits.
-/

/-- `read`: fill a block of `n` bytes (`io.ReadFull`). -/
def readBytes (r : List Nat) (n : Nat) : Except QErr (List Nat × List Nat) :=
  if r.length < n then .error .ioError else .ok (r.take n, r.drop n)

def readByte (r : List Nat) : Except QErr (Nat × List Nat) :=
  match readBytes r 1 with
  | .error e => .error e
  | .ok (b, r') => .ok (b.getD 0 0, r')

def readUint16 (r : List Nat) : Except QErr (Nat × List Nat) :=
  match readBytes r 2 with
  | .error e => .error e
  | .ok (b, r') => .ok (r16 b 0, r')

def readUint32 (r : List Nat) : Except QErr (Nat × List Nat) :=
  match readBytes r 4 with
  | .error e => .error e
  | .ok (b, r') => .ok (r32 b 0, r')

def readUint64 (r : List Nat) : Except QErr (Nat × List Nat) :=
  match readBytes r 8 with
  | .error e => .error e
  | .ok (b, r') => .ok (r64 b 0, r')

def readString (r : List Nat) : Except QErr (List Nat × List Nat) :=
  match readUint16 r with
  | .error e => .error e
  | .ok (l, r') => readBytes r' l

/-- Read `n` length-prefixed strings in order (name-vector loops of the
stream decoders). -/
def readStrings (r : List Nat) :
    Nat → Except QErr (List (List Nat) × List Nat)
  | 0 => .ok ([], r)
  | n + 1 =>
    match readString r with
    | .error e => .error e
    | .ok (s, r') =>
      match readStrings r' n with
      | .error e => .error e
      | .ok (ss, r'') => .ok (s :: ss, r'')

/-- Modelled from the spec: `Qid.Decode` is called by `StatDotu.Decode` but
its body is not among the provided sources. Spec 4.2: decode reverses the
Qid encode, reading type(1), version(4 LE), path(8 LE), 13 bytes total. -/
def Qid.decode (r : List Nat) : Except QErr (Qid × List Nat) :=
  match readByte r with
  | .error e => .error e
  | .ok (t, r) =>
    match readUint32 r with
    | .error e => .error e
    | .ok (v, r) =>
      match readUint64 r with
      | .error e => .error e
      | .ok (p, r) => .ok (⟨t, v, p⟩, r)

/-- Modelled from the spec: `Qid.Encode` (spec 4.2) writes type(1),
version(4 LE), path(8 LE). -/
def Qid.encodeBytes (q : Qid) : List Nat :=
  [q.type % 256] ++ w32 q.version ++ w64 q.path

/-- StatDotu (9pdotu.go): Stat extended with `extensions[s] nuid[4] ngid[4]
nmuid[4]`. -/
structure StatDotu where
  type : Nat
  dev : Nat
  qid : Qid
  mode : Nat
  atime : Nat
  mtime : Nat
  length : Nat
  name : List Nat
  uid : List Nat
  gid : List Nat
  muid : List Nat
  extensions : List Nat
  uidno : Nat
  gidno : Nat
  muidno : Nat
deriving DecidableEq, Repr

def StatDotu.encodedLength (s : StatDotu) : Nat :=
  2 + 2 + 4 + 13 + 4 + 4 + 4 + 8 + 8 + s.name.length + s.uid.length +
    s.gid.length + s.muid.length + 2 + s.extensions.length + 4 + 4 + 4

/-- `StatDotu.Decode`: the leading 2-byte inner size is read and its value
discarded ("We have no use of this length"). -/
def StatDotu.decode (r : List Nat) : Except QErr (StatDotu × List Nat) :=
  match readUint16 r with
  | .error e => .error e
  | .ok (_, r) =>
    match readUint16 r with
    | .error e => .error e
    | .ok (ty, r) =>
      match readUint32 r with
      | .error e => .error e
      | .ok (dev, r) =>
        match Qid.decode r with
        | .error e => .error e
        | .ok (q, r) =>
          match readUint32 r with
          | .error e => .error e
          | .ok (mode, r) =>
            match readUint32 r with
            | .error e => .error e
            | .ok (at_, r) =>
              match readUint32 r with
              | .error e => .error e
              | .ok (mt, r) =>
                match readUint64 r with
                | .error e => .error e
                | .ok (len, r) =>
                  match readString r with
                  | .error e => .error e
                  | .ok (nm, r) =>
                    match readString r with
                    | .error e => .error e
                    | .ok (uid, r) =>
                      match readString r with
                      | .error e => .error e
                      | .ok (gid, r) =>
                        match readString r with
                        | .error e => .error e
                        | .ok (muid, r) =>
                          match readString r with
                          | .error e => .error e
                          | .ok (ext, r) =>
                            match readUint32 r with
                            | .error e => .error e
                            | .ok (un, r) =>
                              match readUint32 r with
                              | .error e => .error e
                              | .ok (gn, r) =>
                                match readUint32 r with
                                | .error e => .error e
                                | .ok (mn, r) =>
                                  .ok (⟨ty, dev, q, mode, at_, mt, len, nm,
                                    uid, gid, muid, ext, un, gn, mn⟩, r)

def writeString (str : List Nat) : List Nat := w16 str.length ++ str

/-- Bytes emitted by a successful `StatDotu.Encode`: leading inner size
(`EncodedLength() - 2`, truncated to uint16), fixed fields, four strings,
extensions, three numeric ids. -/
def StatDotu.encodeBytes (s : StatDotu) : List Nat :=
  w16 (s.encodedLength - 2) ++ w16 s.type ++ w32 s.dev ++
    s.qid.encodeBytes ++ w32 s.mode ++ w32 s.atime ++ w32 s.mtime ++
    w64 s.length ++ writeString s.name ++ writeString s.uid ++
    writeString s.gid ++ writeString s.muid ++ writeString s.extensions ++
    w32 s.uidno ++ w32 s.gidno ++ w32 s.muidno

/-- AuthRequestDotu: `tag[2] afid[4] uname[s] aname[s] nuid[4]`. -/
structure AuthRequestDotu where
  tag : Nat
  authFid : Nat
  username : List Nat
  service : List Nat
  uidno : Nat
deriving DecidableEq, Repr

def AuthRequestDotu.encodedLength (ar : AuthRequestDotu) : Nat :=
  2 + 4 + 2 + ar.username.length + 2 + ar.service.length + 4

def AuthRequestDotu.encodeBytes (ar : AuthRequestDotu) : List Nat :=
  w16 ar.tag ++ w32 ar.authFid ++ writeString ar.username ++
    writeString ar.service ++ w32 ar.uidno

/-- AttachRequestDotu: `tag[2] fid[4] afid[4] uname[s] aname[s] nuid[4]`. -/
structure AttachRequestDotu where
  tag : Nat
  fid : Nat
  authFid : Nat
  username : List Nat
  service : List Nat
  uidno : Nat
deriving DecidableEq, Repr

def AttachRequestDotu.encodedLength (ar : AttachRequestDotu) : Nat :=
  2 + 4 + 4 + 2 + ar.username.length + 2 + ar.service.length + 4

def AttachRequestDotu.encodeBytes (ar : AttachRequestDotu) : List Nat :=
  w16 ar.tag ++ w32 ar.fid ++ w32 ar.authFid ++ writeString ar.username ++
    writeString ar.service ++ w32 ar.uidno

/-- ErrorResponseDotu: `tag[2] ename[s] errno[4]`. -/
structure ErrorResponseDotu where
  tag : Nat
  error : List Nat
  errno : Nat
deriving DecidableEq, Repr

def ErrorResponseDotu.encodedLength (er : ErrorResponseDotu) : Nat :=
  2 + 2 + er.error.length + 4

def ErrorResponseDotu.encodeBytes (er : ErrorResponseDotu) : List Nat :=
  w16 er.tag ++ writeString er.error ++ w32 er.errno

/-- CreateRequestDotu: `tag[2] fid[4] name[s] perm[4] mode[1] extension[s]`. -/
structure CreateRequestDotu where
  tag : Nat
  fid : Nat
  name : List Nat
  permissions : Nat
  mode : Nat
  extensions : List Nat
deriving DecidableEq, Repr

def CreateRequestDotu.encodedLength (cr : CreateRequestDotu) : Nat :=
  2 + 4 + 2 + cr.name.length + 4 + 1 + 2 + cr.extensions.length

def CreateRequestDotu.encodeBytes (cr : CreateRequestDotu) : List Nat :=
  w16 cr.tag ++ w32 cr.fid ++ writeString cr.name ++ w32 cr.permissions ++
    [cr.mode % 256] ++ writeString cr.extensions

/-- StatResponseDotu: `tag[2] stat[n]`, outer 2-byte size then StatDotu. -/
structure StatResponseDotu where
  tag : Nat
  stat : StatDotu
deriving DecidableEq, Repr

def StatResponseDotu.encodedLength (sr : StatResponseDotu) : Nat :=
  2 + 2 + sr.stat.encodedLength

def StatResponseDotu.encodeBytes (sr : StatResponseDotu) : List Nat :=
  w16 sr.tag ++ w16 sr.stat.encodedLength ++ sr.stat.encodeBytes

/-- WriteStatRequestDotu: `tag[2] fid[4] stat[n]`. -/
structure WriteStatRequestDotu where
  tag : Nat
  fid : Nat
  stat : StatDotu
deriving DecidableEq, Repr

def WriteStatRequestDotu.encodedLength (wsr : WriteStatRequestDotu) : Nat :=
  2 + 4 + 2 + wsr.stat.encodedLength

def WriteStatRequestDotu.encodeBytes (wsr : WriteStatRequestDotu) : List Nat :=
  w16 wsr.tag ++ w32 wsr.fid ++ w16 wsr.stat.encodedLength ++
    wsr.stat.encodeBytes

/-- SessionRequestDote: `tag[2] key[8]` (the key is a fixed 8-byte array;
well-formedness of the embedding requires `key.length = 8`). -/
structure SessionRequestDote where
  tag : Nat
  key : List Nat
deriving DecidableEq, Repr

def SessionRequestDote.encodedLength (_ : SessionRequestDote) : Nat := 2 + 8

def SessionRequestDote.encodeBytes (sr : SessionRequestDote) : List Nat :=
  w16 sr.tag ++ sr.key

/-- SessionResponseDote: `tag[2]`. -/
structure SessionResponseDote where
  tag : Nat
deriving DecidableEq, Repr

def SessionResponseDote.encodedLength (_ : SessionResponseDote) : Nat := 2

def SessionResponseDote.encodeBytes (sr : SessionResponseDote) : List Nat :=
  w16 sr.tag

/-- SimpleReadRequestDote: `tag[2] fid[4] nwname[2] nwname*(wname[s])`. -/
structure SimpleReadRequestDote where
  tag : Nat
  fid : Nat
  names : List (List Nat)
deriving DecidableEq, Repr

def SimpleReadRequestDote.encodedLength (srr : SimpleReadRequestDote) : Nat :=
  2 + 4 + 2 + (srr.names.map (fun n => 2 + n.length)).sum

def SimpleReadRequestDote.encodeBytes (srr : SimpleReadRequestDote) :
    List Nat :=
  w16 srr.tag ++ w32 srr.fid ++ w16 srr.names.length ++
    (srr.names.map writeString).flatten

/-- SimpleReadResponseDote: `tag[2] count[4] data[count]`. -/
structure SimpleReadResponseDote where
  tag : Nat
  data : List Nat
deriving DecidableEq, Repr

def SimpleReadResponseDote.encodedLength (srr : SimpleReadResponseDote) :
    Nat :=
  2 + 4 + srr.data.length

def SimpleReadResponseDote.encodeBytes (srr : SimpleReadResponseDote) :
    List Nat :=
  w16 srr.tag ++ w32 srr.data.length ++ srr.data

/-- SimpleWriteRequestDote:
`tag[2] fid[4] nwname[2] nwname*(wname[s]) count[4] data[count]`. -/
structure SimpleWriteRequestDote where
  tag : Nat
  fid : Nat
  names : List (List Nat)
  data : List Nat
deriving DecidableEq, Repr

def SimpleWriteRequestDote.encodedLength (swr : SimpleWriteRequestDote) :
    Nat :=
  2 + 4 + 2 + (swr.names.map (fun n => 2 + n.length)).sum + 4 +
    swr.data.length

def SimpleWriteRequestDote.encodeBytes (swr : SimpleWriteRequestDote) :
    List Nat :=
  w16 swr.tag ++ w32 swr.fid ++ w16 swr.names.length ++
    (swr.names.map writeString).flatten ++ w32 swr.data.length ++ swr.data

/-- SimpleWriteResponseDote: `tag[2] count[4]`. -/
structure SimpleWriteResponseDote where
  tag : Nat
  count : Nat
deriving DecidableEq, Repr

def SimpleWriteResponseDote.encodedLength (_ : SimpleWriteResponseDote) :
    Nat := 2 + 4

def SimpleWriteResponseDote.encodeBytes (swr : SimpleWriteResponseDote) :
    List Nat :=
  w16 swr.tag ++ w32 swr.count

/-!
## The closed message space

`Msg` gathers every message variant of the three dialects. `marshalBytes`
is the byte slice produced by the variant's `MarshalBinary` (for the `.u`
and `.e` stream encoders: the bytes emitted by a successful `Encode`), and
`encodedLength` its `EncodedLength` method.
-/

inductive Msg where
  | versionRequest (m : VersionRequest)
  | versionResponse (m : VersionResponse)
  | authRequest (m : AuthRequest)
  | authResponse (m : AuthResponse)
  | attachRequest (m : AttachRequest)
  | attachResponse (m : AttachResponse)
  | errorResponse (m : ErrorResponse)
  | flushRequest (m : FlushRequest)
  | flushResponse (m : FlushResponse)
  | walkRequest (m : WalkRequest)
  | walkResponse (m : WalkResponse)
  | openRequest (m : OpenRequest)
  | openResponse (m : OpenResponse)
  | createRequest (m : CreateRequest)
  | createResponse (m : CreateResponse)
  | readRequest (m : ReadRequest)
  | readResponse (m : ReadResponse)
  | writeRequest (m : WriteRequest)
  | writeResponse (m : WriteResponse)
  | clunkRequest (m : ClunkRequest)
  | clunkResponse (m : ClunkResponse)
  | removeRequest (m : RemoveRequest)
  | removeResponse (m : RemoveResponse)
  | statRequest (m : StatRequest)
  | statResponse (m : StatResponse)
  | writeStatRequest (m : WriteStatRequest)
  | writeStatResponse (m : WriteStatResponse)
  | authRequestDotu (m : AuthRequestDotu)
  | attachRequestDotu (m : AttachRequestDotu)
  | errorResponseDotu (m : ErrorResponseDotu)
  | createRequestDotu (m : CreateRequestDotu)
  | statResponseDotu (m : StatResponseDotu)
  | writeStatRequestDotu (m : WriteStatRequestDotu)
  | sessionRequestDote (m : SessionRequestDote)
  | sessionResponseDote (m : SessionResponseDote)
  | simpleReadRequestDote (m : SimpleReadRequestDote)
  | simpleReadResponseDote (m : SimpleReadResponseDote)
  | simpleWriteRequestDote (m : SimpleWriteRequestDote)
  | simpleWriteResponseDote (m : SimpleWriteResponseDote)
deriving DecidableEq, Repr

def Msg.marshalBytes : Msg → List Nat
  | .versionRequest m => m.marshalBinary
  | .versionResponse m => m.marshalBinary
  | .authRequest m => m.marshalBinary
  | .authResponse m => m.marshalBinary
  | .attachRequest m => m.marshalBinary
  | .attachResponse m => m.marshalBinary
  | .errorResponse m => m.marshalBinary
  | .flushRequest m => m.marshalBinary
  | .flushResponse m => m.marshalBinary
  | .walkRequest m => m.marshalBinary
  | .walkResponse m => m.marshalBinary
  | .openRequest m => m.marshalBinary
  | .openResponse m => m.marshalBinary
  | .createRequest m => m.marshalBinary
  | .createResponse m => m.marshalBinary
  | .readRequest m => m.marshalBinary
  | .readResponse m => m.marshalBinary
  | .writeRequest m => m.marshalBinary
  | .writeResponse m => m.marshalBinary
  | .clunkRequest m => m.marshalBinary
  | .clunkResponse m => m.marshalBinary
  | .removeRequest m => m.marshalBinary
  | .removeResponse m => m.marshalBinary
  | .statRequest m => m.marshalBinary
  | .statResponse m => m.marshalBinary
  | .writeStatRequest m => m.marshalBinary
  | .writeStatResponse m => m.marshalBinary
  | .authRequestDotu m => m.encodeBytes
  | .attachRequestDotu m => m.encodeBytes
  | .errorResponseDotu m => m.encodeBytes
  | .createRequestDotu m => m.encodeBytes
  | .statResponseDotu m => m.encodeBytes
  | .writeStatRequestDotu m => m.encodeBytes
  | .sessionRequestDote m => m.encodeBytes
  | .sessionResponseDote m => m.encodeBytes
  | .simpleReadRequestDote m => m.encodeBytes
  | .simpleReadResponseDote m => m.encodeBytes
  | .simpleWriteRequestDote m => m.encodeBytes
  | .simpleWriteResponseDote m => m.encodeBytes

def Msg.encodedLength : Msg → Nat
  | .versionRequest m => m.encodedLength
  | .versionResponse m => m.encodedLength
  | .authRequest m => m.encodedLength
  | .authResponse m => m.encodedLength
  | .attachRequest m => m.encodedLength
  | .attachResponse m => m.encodedLength
  | .errorResponse m => m.encodedLength
  | .flushRequest m => m.encodedLength
  | .flushResponse m => m.encodedLength
  | .walkRequest m => m.encodedLength
  | .walkResponse m => m.encodedLength
  | .openRequest m => m.encodedLength
  | .openResponse m => m.encodedLength
  | .createRequest m => m.encodedLength
  | .createResponse m => m.encodedLength
  | .readRequest m => m.encodedLength
  | .readResponse m => m.encodedLength
  | .writeRequest m => m.encodedLength
  | .writeResponse m => m.encodedLength
  | .clunkRequest m => m.encodedLength
  | .clunkResponse m => m.encodedLength
  | .removeRequest m => m.encodedLength
  | .removeResponse m => m.encodedLength
  | .statRequest m => m.encodedLength
  | .statResponse m => m.encodedLength
  | .writeStatRequest m => m.encodedLength
  | .writeStatResponse m => m.encodedLength
  | .authRequestDotu m => m.encodedLength
  | .attachRequestDotu m => m.encodedLength
  | .errorResponseDotu m => m.encodedLength
  | .createRequestDotu m => m.encodedLength
  | .statResponseDotu m => m.encodedLength
  | .writeStatRequestDotu m => m.encodedLength
  | .sessionRequestDote m => m.encodedLength
  | .sessionResponseDote m => m.encodedLength
  | .simpleReadRequestDote m => m.encodedLength
  | .simpleReadResponseDote m => m.encodedLength
  | .simpleWriteRequestDote m => m.encodedLength
  | .simpleWriteResponseDote m => m.encodedLength

/-- Well-formedness of the embedding: the only constraint not enforced by
the types is that a SessionRequestDote key is a fixed 8-byte array. -/
def Msg.wf : Msg → Prop
  | .sessionRequestDote m => m.key.length = 8
  | _ => True

/-!
## Message type constants and protocol tables

The base table (MessageTypeToMessage / MessageToMessageType), the `.u`
overrides with fall-through (MessageTypeToMessageDotu /
MessageToMessageTypeDotu) and the `.e` additions with fall-through
(MessageTypeToMessageDote / MessageToMessageTypeDote). The tables operate
on the closed set of variants, represented by the enum `MsgKind`.
-/

def Tversion : Nat := 100

def Rversion : Nat := 101

def Tauth : Nat := 102

def Rauth : Nat := 103

def Tattach : Nat := 104

def Rattach : Nat := 105

/-- Terror is reserved: not a valid message. -/
def Terror : Nat := 106

def Rerror : Nat := 107

def Tflush : Nat := 108

def Rflush : Nat := 109

def Twalk : Nat := 110

def Rwalk : Nat := 111

def Topen : Nat := 112

def Ropen : Nat := 113

def Tcreate : Nat := 114

def Rcreate : Nat := 115

def Tread : Nat := 116

def Rread : Nat := 117

def Twrite : Nat := 118

def Rwrite : Nat := 119

def Tclunk : Nat := 120

def Rclunk : Nat := 121

def Tremove : Nat := 122

def Rremove : Nat := 123

def Tstat : Nat := 124

def Rstat : Nat := 125

def Twstat : Nat := 126

def Rwstat : Nat := 127

def Tsession : Nat := 150

def Rsession : Nat := 151

def Tsread : Nat := 152

def Rsread : Nat := 153

def Tswrite : Nat := 154

def Rswrite : Nat := 155

/-- The closed set of concrete message variants across the three dialects
(the dynamic type of the empty struct a table constructs or classifies). -/
inductive MsgKind where
  | versionRequest
  | versionResponse
  | authRequest
  | authResponse
  | attachRequest
  | attachResponse
  | errorResponse
  | flushRequest
  | flushResponse
  | walkRequest
  | walkResponse
  | openRequest
  | openResponse
  | createRequest
  | createResponse
  | readRequest
  | readResponse
  | writeRequest
  | writeResponse
  | clunkRequest
  | clunkResponse
  | removeRequest
  | removeResponse
  | statRequest
  | statResponse
  | writeStatRequest
  | writeStatResponse
  | authRequestDotu
  | attachRequestDotu
  | errorResponseDotu
  | createRequestDotu
  | statResponseDotu
  | writeStatRequestDotu
  | sessionRequestDote
  | sessionResponseDote
  | simpleReadRequestDote
  | simpleReadResponseDote
  | simpleWriteRequestDote
  | simpleWriteResponseDote
deriving DecidableEq, Repr

/-- `MessageTypeToMessage`: the base 9P2000 code-to-variant table. -/
def MessageTypeToMessage (mt : Nat) : Except QErr MsgKind :=
  if mt = Tversion then .ok .versionRequest
  else if mt = Rversion then .ok .versionResponse
  else if mt = Tauth then .ok .authRequest
  else if mt = Rauth then .ok .authResponse
  else if mt = Tattach then .ok .attachRequest
  else if mt = Rattach then .ok .attachResponse
  else if mt = Tflush then .ok .flushRequest
  else if mt = Rflush then .ok .flushResponse
  else if mt = Twalk then .ok .walkRequest
  else if mt = Rwalk then .ok .walkResponse
  else if mt = Topen then .ok .openRequest
  else if mt = Ropen then .ok .openResponse
  else if mt = Tcreate then .ok .createRequest
  else if mt = Rcreate then .ok .createResponse
  else if mt = Tread then .ok .readRequest
  else if mt = Rread then .ok .readResponse
  else if mt = Twrite then .ok .writeRequest
  else if mt = Rwrite then .ok .writeResponse
  else if mt = Tclunk then .ok .clunkRequest
  else if mt = Rclunk then .ok .clunkResponse
  else if mt = Tremove then .ok .removeRequest
  else if mt = Rremove then .ok .removeResponse
  else if mt = Tstat then .ok .statRequest
  else if mt = Rstat then .ok .statResponse
  else if mt = Twstat then .ok .writeStatRequest
  else if mt = Rwstat then .ok .writeStatResponse
  else if mt = Rerror then .ok .errorResponse
  else .error .unknownMessageType

/-- `MessageToMessageType`: the base 9P2000 variant-to-code table (the
type switch; variants of other dialects fall to the default and yield
`ErrUnknownMessageType`). -/
def MessageToMessageType (k : MsgKind) : Except QErr Nat :=
  match k with
  | .versionRequest => .ok Tversion
  | .versionResponse => .ok Rversion
  | .authRequest => .ok Tauth
  | .authResponse => .ok Rauth
  | .attachRequest => .ok Tattach
  | .attachResponse => .ok Rattach
  | .errorResponse => .ok Rerror
  | .flushRequest => .ok Tflush
  | .flushResponse => .ok Rflush
  | .walkRequest => .ok Twalk
  | .walkResponse => .ok Rwalk
  | .openRequest => .ok Topen
  | .openResponse => .ok Ropen
  | .createRequest => .ok Tcreate
  | .createResponse => .ok Rcreate
  | .readRequest => .ok Tread
  | .readResponse => .ok Rread
  | .writeRequest => .ok Twrite
  | .writeResponse => .ok Rwrite
  | .clunkRequest => .ok Tclunk
  | .clunkResponse => .ok Rclunk
  | .removeRequest => .ok Tremove
  | .removeResponse => .ok Rremove
  | .statRequest => .ok Tstat
  | .statResponse => .ok Rstat
  | .writeStatRequest => .ok Twstat
  | .writeStatResponse => .ok Rwstat
  | _ => .error .unknownMessageType

/-- `MessageTypeToMessageDotu`: `.u` overrides, falling through to the
base table. -/
def MessageTypeToMessageDotu (mt : Nat) : Except QErr MsgKind :=
  if mt = Tauth then .ok .authRequestDotu
  else if mt = Tattach then .ok .attachRequestDotu
  else if mt = Rerror then .ok .errorResponseDotu
  else if mt = Tcreate then .ok .createRequestDotu
  else if mt = Rstat then .ok .statResponseDotu
  else if mt = Twstat then .ok .writeStatRequestDotu
  else MessageTypeToMessage mt

/-- `MessageToMessageTypeDotu`: `.u` overrides, falling through to the
base table. -/
def MessageToMessageTypeDotu (k : MsgKind) : Except QErr Nat :=
  match k with
  | .authRequestDotu => .ok Tauth
  | .attachRequestDotu => .ok Tattach
  | .errorResponseDotu => .ok Rerror
  | .createRequestDotu => .ok Tcreate
  | .statResponseDotu => .ok Rstat
  | .writeStatRequestDotu => .ok Twstat
  | _ => MessageToMessageType k

/-- `MessageTypeToMessageDote`: `.e` additions, falling through to the
base table. -/
def MessageTypeToMessageDote (mt : Nat) : Except QErr MsgKind :=
  if mt = Tsession then .ok .sessionRequestDote
  else if mt = Rsession then .ok .sessionResponseDote
  else if mt = Tsread then .ok .simpleReadRequestDote
  else if mt = Rsread then .ok .simpleReadResponseDote
  else if mt = Tswrite then .ok .simpleWriteRequestDote
  else if mt = Rswrite then .ok .simpleWriteResponseDote
  else MessageTypeToMessage mt

/-- `MessageToMessageTypeDote`: `.e` additions, falling through to the
base table. -/
def MessageToMessageTypeDote (k : MsgKind) : Except QErr Nat :=
  match k with
  | .sessionRequestDote => .ok Tsession
  | .sessionResponseDote => .ok Rsession
  | .simpleReadRequestDote => .ok Tsread
  | .simpleReadResponseDote => .ok Rsread
  | .simpleWriteRequestDote => .ok Tswrite
  | .simpleWriteResponseDote => .ok Rswrite
  | _ => MessageToMessageType k

/-- The three dialects; each bundles its code-to-variant (`Message`, the
spec's `new_of`) and variant-to-code (`MessageType`, the spec's `type_of`)
table. -/
inductive Dialect where
  | base
  | dotu
  | dote
deriving DecidableEq, Repr, Fintype

def Dialect.newOf : Dialect → Nat → Except QErr MsgKind
  | .base => MessageTypeToMessage
  | .dotu => MessageTypeToMessageDotu
  | .dote => MessageTypeToMessageDote

def Dialect.typeOf : Dialect → MsgKind → Except QErr Nat
  | .base => MessageToMessageType
  | .dotu => MessageToMessageTypeDotu
  | .dote => MessageToMessageTypeDote

instance {ε α : Type} [DecidableEq ε] [DecidableEq α] :
    DecidableEq (Except ε α) := fun x y =>
  match x, y with
  | .ok a, .ok b =>
    if h : a = b then .isTrue (congrArg _ h)
    else .isFalse (fun hh => h (Except.ok.inj hh))
  | .error a, .error b =>
    if h : a = b then .isTrue (congrArg _ h)
    else .isFalse (fun hh => h (Except.error.inj hh))
  | .ok _, .error _ => .isFalse Except.noConfusion
  | .error _, .ok _ => .isFalse Except.noConfusion

/-- Bool-level round-trip check of one dialect table at one type code:
if `new_of` succeeds, `type_of` of the produced empty variant must give the
code back, and `new_of` of that code must give the variant back. -/
def tableRoundTrip (d : Dialect) (mt : Nat) : Bool :=
  match d.newOf mt with
  | .error _ => true
  | .ok v =>
    match d.typeOf v with
    | .error _ => false
    | .ok mt2 => decide (mt2 = mt) && decide (d.newOf mt2 = .ok v)

/-!
## The direct-indexing revision of 9p.go

The second revision of 9p.go marshals into a preallocated zeroed byte array
with `binary.LittleEndian.Put*` writes at fixed offsets and unmarshals with
direct indexing. Its `CreateResponse.MarshalBinary` writes the Qid type
byte at offset 3 and then overwrites offsets 3..6 with the version; its
`Stat.UnmarshalBinary` never reads the two leading inner-size bytes.
These definitions live in the `Rev9p` namespace.
-/

/-- `binary.LittleEndian.Put*` / `copy` into `b` at offset `i` (in-range at
every use below: the target arrays are preallocated to the exact size). -/
def putBytes (b : List Nat) (i : Nat) (vs : List Nat) : List Nat :=
  b.take i ++ vs ++ b.drop (i + vs.length)

namespace Rev9p

/-- `CreateResponse.MarshalBinary` of the direct-indexing revision:
`b[3] = type` immediately followed by `PutUint32(b[3:7], version)`. -/
def CreateResponse.marshalBinary (cr : CreateResponse) : List Nat :=
  let b := List.replicate (2 + 13 + 4) 0
  let b := putBytes b 0 (w16 cr.tag)
  let b := putBytes b 3 [cr.qid.type % 256]
  let b := putBytes b 3 (w32 cr.qid.version)
  let b := putBytes b 7 (w64 cr.qid.path)
  let b := putBytes b 15 (w32 cr.iounit)
  b

/-- `CreateResponse.UnmarshalBinary` of the direct-indexing revision: the
Qid type byte is read from offset 3 (inside the version field). -/
def CreateResponse.unmarshalBinary (b : List Nat) : DRes CreateResponse :=
  if b.length < 2 + 13 + 4 then .fail .payloadTooShort
  else
    .ok ⟨r16 b 0, ⟨b.getD 3 0, r32 b 3, r64 b 7⟩, r32 b 15⟩

/-- `Stat.UnmarshalBinary` of the direct-indexing revision. The two leading
inner-size bytes (offsets 0 and 1) are never read; note the `t+l`
comparison in the UID arm, exactly as in the source. -/
def Stat.unmarshalBinary (b : List Nat) : DRes Stat :=
  let t := 2 + 2 + 4 + 13 + 4 + 4 + 4 + 8 + 2 + 2 + 2 + 2
  if b.length < t then .fail .payloadTooShort
  else
    let ty := r16 b 2
    let dev := r32 b 4
    let qt := b.getD 8 0
    let qv := r32 b 9
    let qp := r64 b 13
    let mode := r32 b 21
    let at_ := r32 b 25
    let mt := r32 b 29
    let len := r64 b 33
    let idx := 41
    let l := r16 b idx
    let t := t + l
    if b.length < t then .fail .payloadTooShort
    else
      let nm := (b.drop (idx + 2)).take l
      let idx := idx + 2 + l
      let l := r16 b idx
      let t := t + l
      if b.length < t + l then .fail .payloadTooShort
      else
        let uid := (b.drop (idx + 2)).take l
        let idx := idx + 2 + l
        let l := r16 b idx
        let t := t + l
        if b.length < t then .fail .payloadTooShort
        else
          let gid := (b.drop (idx + 2)).take l
          let idx := idx + 2 + l
          let l := r16 b idx
          let t := t + l
          if b.length < t then .fail .payloadTooShort
          else
            let muid := (b.drop (idx + 2)).take l
            .ok ⟨ty, dev, ⟨qt, qv, qp⟩, mode, at_, mt, len, nm, uid, gid,
              muid⟩

end Rev9p

/-!
## container.go: framing codec

`HeaderSize` is the 5-byte frame overhead. The encoder and the two decoding
strategies are modelled generically in the protocol: `protoM` is the active
table's code-to-variant lookup and `unm` the variant's body unmarshal. The
transport reader is a byte list plus a fragmentation schedule; the writer is
the list of bytes written so far.
-/

def HeaderSize : Nat := 4 + 1

/-- `Encoder.WriteMessage`: resolve the type code, marshal the body (the
arguments `mtRes` and `msgbuf` stand for those two results), reject a frame larger
than `MessageSize` before anything is written, else write the 5-byte header
and the body. The second component is the underlying writer's contents. -/
def Encoder.writeMessage (mtRes : Except QErr Nat) (msgbuf : List Nat)
    (msize : Nat) (written : List Nat) : Except QErr Unit × List Nat :=
  match mtRes with
  | .error e => (.error e, written)
  | .ok mt =>
    if msize < msgbuf.length + HeaderSize then (.error .messageTooBig, written)
    else
      (.ok (),
        written ++ w32 (msgbuf.length + HeaderSize) ++ [mt % 256] ++ msgbuf)

/-- Lift a variant unmarshal into the message sum (plumbing for
instantiating the generic decoders with the nread revision's codec). -/
def DRes.mapv {α β : Type} (f : α → β) : DRes α → DRes β
  | .ok a => .ok (f a)
  | .fail e => .fail e
  | .panicked => .panicked

/-- The nread revision's body unmarshal, dispatched by variant. The `.u`
and `.e` kinds have no `UnmarshalBinary` in this revision (and the base
table never constructs them); they yield `ErrUnknownMessageType`. -/
def unmBase (k : MsgKind) (b : List Nat) : DRes Msg :=
  match k with
  | .versionRequest => (VersionRequest.unmarshalBinary b).mapv .versionRequest
  | .versionResponse =>
    (VersionResponse.unmarshalBinary b).mapv .versionResponse
  | .authRequest => (AuthRequest.unmarshalBinary b).mapv .authRequest
  | .authResponse => (AuthResponse.unmarshalBinary b).mapv .authResponse
  | .attachRequest => (AttachRequest.unmarshalBinary b).mapv .attachRequest
  | .attachResponse => (AttachResponse.unmarshalBinary b).mapv .attachResponse
  | .errorResponse => (ErrorResponse.unmarshalBinary b).mapv .errorResponse
  | .flushRequest => (FlushRequest.unmarshalBinary b).mapv .flushRequest
  | .flushResponse => (FlushResponse.unmarshalBinary b).mapv .flushResponse
  | .walkRequest => (WalkRequest.unmarshalBinary b).mapv .walkRequest
  | .walkResponse => (WalkResponse.unmarshalBinary b).mapv .walkResponse
  | .openRequest => (OpenRequest.unmarshalBinary b).mapv .openRequest
  | .openResponse => (OpenResponse.unmarshalBinary b).mapv .openResponse
  | .createRequest => (CreateRequest.unmarshalBinary b).mapv .createRequest
  | .createResponse => (CreateResponse.unmarshalBinary b).mapv .createResponse
  | .readRequest => (ReadRequest.unmarshalBinary b).mapv .readRequest
  | .readResponse => (ReadResponse.unmarshalBinary b).mapv .readResponse
  | .writeRequest => (WriteRequest.unmarshalBinary b).mapv .writeRequest
  | .writeResponse => (WriteResponse.unmarshalBinary b).mapv .writeResponse
  | .clunkRequest => (ClunkRequest.unmarshalBinary b).mapv .clunkRequest
  | .clunkResponse => (ClunkResponse.unmarshalBinary b).mapv .clunkResponse
  | .removeRequest => (RemoveRequest.unmarshalBinary b).mapv .removeRequest
  | .removeResponse => (RemoveResponse.unmarshalBinary b).mapv .removeResponse
  | .statRequest => (StatRequest.unmarshalBinary b).mapv .statRequest
  | .statResponse => (StatResponse.unmarshalBinary b).mapv .statResponse
  | .writeStatRequest =>
    (WriteStatRequest.unmarshalBinary b).mapv .writeStatRequest
  | .writeStatResponse =>
    (WriteStatResponse.unmarshalBinary b).mapv .writeStatResponse
  | _ => .fail .unknownMessageType

/-- `Decoder.simpleRead`: read 5 header bytes with `io.ReadFull`, resolve
the type, compute the body length as the uint32 difference `size − 5`
(wrapping below 5!), read exactly that many body bytes, unmarshal. Returns
the result and the unconsumed remainder of the stream. -/
def Decoder.simpleRead {V M : Type} (protoM : Nat → Except QErr V)
    (unm : V → List Nat → DRes M) (stream : List Nat) : DRes M × List Nat :=
  if stream.length < 5 then (.fail .ioError, [])
  else
    let s := r32 stream 0
    let mt := stream.getD 4 0
    match protoM mt with
    | .error e => (.fail e, stream.drop 5)
    | .ok v =>
      let bodyLen := (s + 4294967296 - HeaderSize) % 4294967296
      if (stream.drop 5).length < bodyLen then (.fail .ioError, [])
      else
        match unm v ((stream.drop 5).take bodyLen) with
        | .ok m => (.ok m, stream.drop (5 + bodyLen))
        | .fail e => (.fail e, stream.drop (5 + bodyLen))
        | .panicked => (.panicked, stream.drop (5 + bodyLen))

/-- Greedy decoder state (`Decoder` of container.go): the reusable buffer,
`total` bytes buffered, read cursor `ptr`, the signed missing-byte count
`needed`, the current body `size`, and the pending empty message `m`. -/
structure DecSt (V : Type) where
  msize : Nat
  buffer : List Nat
  total : Nat
  ptr : Nat
  needed : Int
  size : Nat
  m : Option V

/-- `Decoder.Reset`: fresh buffer of `MessageSize` bytes, cursors zeroed,
`needed = HeaderSize`. -/
def Decoder.reset (V : Type) (msize : Nat) : DecSt V :=
  ⟨msize, List.replicate msize 0, 0, 0, (HeaderSize : Int), 0, none⟩

/-- Transport reader state: bytes still to come plus a fragmentation
schedule. A `Read` of `req > 0` bytes returns between 1 and
`min req remaining` bytes as directed by the schedule; an exhausted
transport reports the I/O error (e.g. EOF). -/
structure RdSt where
  bytes : List Nat
  frag : List Nat

/-- One transport `Read` into a slice of capacity `req`: returns the byte
count, the error if any, and the advanced reader. -/
def readStep (rd : RdSt) (req : Nat) : Nat × Option QErr × RdSt :=
  if rd.bytes.isEmpty then (0, some .ioError, rd)
  else
    let n := min (min (rd.frag.headD 0 + 1) req) rd.bytes.length
    (n, none, ⟨rd.bytes.drop n, rd.frag.tail⟩)

/-- Outcome of the inner parse loop of `greedyRead` for one pass. -/
inductive GStep (V M : Type) where
  | msg (m : M) (st : DecSt V)
  | err (e : QErr)
  | panicked
  | cont (st : DecSt V)

/-- Body arm of the inner loop: hand `buffer[ptr : ptr+size]` to the
pending message's unmarshal; on success advance `ptr`, add the next
header's 5 bytes to `needed`, clear the pending message and return it. -/
def greedyBody {V M : Type} (unm : V → List Nat → DRes M) (st : DecSt V)
    (v : V) : GStep V M :=
  match goSlice st.buffer st.ptr (st.ptr + st.size) with
  | none => .panicked
  | some sub =>
    match unm v sub with
    | .fail e => .err e
    | .panicked => .panicked
    | .ok msg =>
      .msg msg
        { st with
          needed := st.needed + (HeaderSize : Int)
          ptr := st.ptr + st.size
          size := 0
          m := none }

/-- The inner loop of `greedyRead` (`for d.needed <= 0`): parse a header if
no message is pending (failing with `MessageTooBig` when the declared frame
size exceeds the buffer), else unmarshal the pending body. A header parse
is followed by the loop test again: body if satisfied, otherwise back to
reading. -/
def greedyInner {V M : Type} (protoM : Nat → Except QErr V)
    (unm : V → List Nat → DRes M) (st : DecSt V) : GStep V M :=
  if st.needed ≤ 0 then
    match st.m with
    | some v => greedyBody unm st v
    | none =>
      let s := r32 st.buffer st.ptr
      if st.buffer.length < s then .err .messageTooBig
      else
        let size := (s + 4294967296 - HeaderSize) % 4294967296
        let mt := st.buffer.getD (st.ptr + 4) 0
        match protoM mt with
        | .error e => .err e
        | .ok v =>
          let st' : DecSt V :=
            { st with
              size := size
              needed := st.needed + (size : Int)
              ptr := st.ptr + HeaderSize
              m := some v }
          if st'.needed ≤ 0 then greedyBody unm st' v else .cont st'
  else .cont st

/-- Buffer cleanup of `greedyRead`: shift `buffer[ptr:total]` to the start
when the free tail is smaller than `needed`. -/
def greedyCompact {V : Type} (st : DecSt V) : DecSt V :=
  if (st.buffer.length : Int) - (st.total : Int) < st.needed then
    { st with
      buffer :=
        putBytes st.buffer 0 ((st.buffer.drop st.ptr).take
          (st.total - st.ptr))
      total := st.total - st.ptr
      ptr := 0 }
  else st

/-- Result of one `greedyRead` call. -/
inductive GOut (V M : Type) where
  | msg (m : M) (st : DecSt V) (rd : RdSt)
  | err (e : QErr)
  | panicked
  | fuelOut

/-- The outer loop of `greedyRead`: run the inner loop; if it neither
returned nor errored, surface a read error deferred from the previous
iteration, compact the buffer if needed, read into `buffer[total:]`,
account `total += n`, `needed -= n`, and go again. -/
def greedyLoop {V M : Type} (protoM : Nat → Except QErr V)
    (unm : V → List Nat → DRes M) :
    Nat → DecSt V → RdSt → Option QErr → GOut V M
  | 0, _, _, _ => .fuelOut
  | fuel + 1, st, rd, readerr =>
    match greedyInner protoM unm st with
    | .msg m st' => .msg m st' rd
    | .err e => .err e
    | .panicked => .panicked
    | .cont st' =>
      match readerr with
      | some e => .err e
      | none =>
        let st'' := greedyCompact st'
        let req := st''.buffer.length - st''.total
        let (n, rerr, rd') := readStep rd req
        let st3 : DecSt V :=
          { st'' with
            buffer := putBytes st''.buffer st''.total (rd.bytes.take n)
            total := st''.total + n
            needed := st''.needed - (n : Int) }
        greedyLoop protoM unm fuel st3 rd' rerr

/-- `Decoder.greedyRead` = one `ReadMessage` call in greedy mode: the outer
loop started with no deferred read error. -/
def Decoder.greedyRead {V M : Type} (protoM : Nat → Except QErr V)
    (unm : V → List Nat → DRes M) (fuel : Nat) (st : DecSt V) (rd : RdSt) :
    GOut V M :=
  greedyLoop protoM unm fuel st rd none

/-- Result of repeatedly calling `ReadMessage`: the messages returned in
order, then how the sequence ended. -/
inductive RunOut (M : Type) where
  | done (ms : List M) (e : QErr)
  | panicked (ms : List M)
  | more (ms : List M)
deriving DecidableEq, Repr

def RunOut.consM {M : Type} (m : M) : RunOut M → RunOut M
  | .done ms e => .done (m :: ms) e
  | .panicked ms => .panicked (m :: ms)
  | .more ms => .more ms

/-- Repeated `ReadMessage` in simple mode. -/
def runSimple {V M : Type} (protoM : Nat → Except QErr V)
    (unm : V → List Nat → DRes M) : Nat → List Nat → RunOut M
  | 0, _ => .more []
  | calls + 1, stream =>
    match Decoder.simpleRead protoM unm stream with
    | (.ok m, rest) => (runSimple protoM unm calls rest).consM m
    | (.fail e, _) => .done [] e
    | (.panicked, _) => .panicked []

/-- Repeated `ReadMessage` in greedy mode (per-call fuel `cf`). -/
def runGreedy {V M : Type} (protoM : Nat → Except QErr V)
    (unm : V → List Nat → DRes M) (cf : Nat) :
    Nat → DecSt V → RdSt → RunOut M
  | 0, _, _ => .more []
  | calls + 1, st, rd =>
    match Decoder.greedyRead protoM unm cf st rd with
    | .msg m st' rd' => (runGreedy protoM unm cf calls st' rd').consM m
    | .err e => .done [] e
    | .panicked => .panicked []
    | .fuelOut => .more []

/-- A wire frame: type code and body. -/
structure Frame where
  mt : Nat
  body : List Nat

/-- The frame's bytes: `size(4 LE) type(1) body`, `size` covering all five
header bytes and the body. -/
def Frame.bytes (f : Frame) : List Nat :=
  w32 (f.body.length + HeaderSize) ++ [f.mt % 256] ++ f.body

/-- A frame is admissible for buffer size `msize` when its full framed size
fits and its type code is a byte. -/
def Frame.wf (msize : Nat) (f : Frame) : Prop :=
  f.body.length + HeaderSize ≤ msize ∧ f.mt < 256

def framesBytes (fs : List Frame) : List Nat := (fs.map Frame.bytes).flatten

/-- The reference decode of a frame sequence: each frame's type resolved
through the table and its body unmarshalled, stopping at the first failure;
a fully consumed stream ends with the error `eT` the terminal produces
(the transport error for a clean or truncated end). -/
def decodeFrames {V M : Type} (protoM : Nat → Except QErr V)
    (unm : V → List Nat → DRes M) (eT : QErr) : List Frame → RunOut M
  | [] => .done [] eT
  | f :: fs =>
    match protoM f.mt with
    | .error e => .done [] e
    | .ok v =>
      match unm v f.body with
      | .fail e => .done [] e
      | .panicked => .panicked []
      | .ok m => (decodeFrames protoM unm eT fs).consM m

/-!
## Greedy decoder: loop invariant and step lemmas

`PInv msize req st rd RB` states that the decoder buffer holds, between
`ptr` and `total`, exactly the first `total - ptr` bytes of the remaining
input `RB`, the reader holds the rest, and `needed` counts the bytes still
missing for the current parse step of requirement `req` (5 for a header,
`size` for a body). `GInv` is the between-calls instance: no pending
message and a header outstanding.
-/

def PInv {V : Type} (msize req : Nat) (st : DecSt V) (rd : RdSt)
    (RB : List Nat) : Prop :=
  st.buffer.length = msize ∧
  st.ptr ≤ st.total ∧
  st.total ≤ msize ∧
  (st.buffer.drop st.ptr).take (st.total - st.ptr) =
    RB.take (st.total - st.ptr) ∧
  st.total - st.ptr ≤ RB.length ∧
  rd.bytes = RB.drop (st.total - st.ptr) ∧
  st.needed = (req : Int) - ((st.total : Int) - (st.ptr : Int))

def GInv {V : Type} (msize : Nat) (st : DecSt V) (rd : RdSt)
    (R : List Nat) : Prop :=
  PInv msize HeaderSize st rd R ∧ st.m = none

/-- What one `greedyRead` call returns once a header naming body `body` has
been parsed (pending message `v`): exactly the unmarshal's verdict, and on
success the between-calls invariant holds for the rest `R'` of the input. -/
def BodyOut {V M : Type} (unm : V → List Nat → DRes M) (msize : Nat)
    (body R' : List Nat) (v : V) (out : GOut V M) : Prop :=
  match unm v body with
  | .fail e => out = .err e
  | .panicked => out = .panicked
  | .ok m => ∃ st' rd', out = .msg m st' rd' ∧ GInv msize st' rd' R'

/-- What one `greedyRead` call returns when frame `f` heads the remaining
input: the table verdict on the type code, then the unmarshal verdict on
exactly the body bytes; on success the between-calls invariant holds for
the rest `R'`. -/
def GoodCall {V M : Type} (protoM : Nat → Except QErr V)
    (unm : V → List Nat → DRes M) (msize : Nat) (f : Frame) (R' : List Nat)
    (out : GOut V M) : Prop :=
  match protoM f.mt with
  | .error e => out = .err e
  | .ok v => BodyOut unm msize f.body R' v out

instance (msize : Nat) (f : Frame) : Decidable (f.wf msize) := by
  unfold Frame.wf
  infer_instance

/-- The C3 counterexample frame: an `Rversion` with a 10-byte body, 15
bytes framed — larger than a `MessageSize` of 8. -/
def bigFrame : Frame :=
  ⟨101, [255, 255, 0, 32, 0, 0, 2, 0, 57, 80]⟩

theorem foldl_nwriteString_length (names : List (List Nat)) (b : List Nat) :
    (names.foldl nwriteString b).length =
      b.length + (names.map (fun n => 2 + n.length)).sum := by
  induction names generalizing b with
  | nil => simp
  | cons n ns ih =>
    simp only [List.foldl_cons, List.map_cons, List.sum_cons, ih]
    simp [Nat.add_assoc, Nat.add_comm, Nat.add_left_comm]

theorem foldl_qids_length (qids : List Qid) (b : List Nat) :
    (qids.foldl (fun b q => b ++ q.marshalBinary) b).length =
      b.length + 13 * qids.length := by
  induction qids generalizing b with
  | nil => simp
  | cons q qs ih =>
    simp only [List.foldl_cons, ih]
    simp [Qid.marshalBinary, Nat.mul_add, Nat.mul_succ]
    omega

theorem flatten_writeString_length (names : List (List Nat)) :
    ((names.map writeString).flatten).length =
      (names.map (fun n => 2 + n.length)).sum := by
  induction names with
  | nil => simp
  | cons n ns ih =>
    simp [writeString, ih]
    omega

@[simp] theorem sum_length_writeString (names : List (List Nat)) :
    (names.map (List.length ∘ writeString)).sum =
      2 * names.length + (names.map List.length).sum := by
  induction names with
  | nil => simp
  | cons n ns ih =>
    simp [writeString, ih]
    omega

@[simp] theorem qid_marshal_length (q : Qid) :
    q.marshalBinary.length = 13 := by
  simp [Qid.marshalBinary]

@[simp] theorem stat_marshal_length (s : Stat) :
    s.marshalBinary.length = s.encodedLength := by
  simp [Stat.marshalBinary, Stat.encodedLength]
  omega

@[simp] theorem qid_encodeBytes_length (q : Qid) :
    q.encodeBytes.length = 13 := by
  simp [Qid.encodeBytes]

@[simp] theorem statDotu_encodeBytes_length (s : StatDotu) :
    s.encodeBytes.length = s.encodedLength := by
  simp [StatDotu.encodeBytes, StatDotu.encodedLength, writeString]
  omega

/-- C4: for every well-formed message of every variant in every dialect,
`EncodedLength` equals the length of the marshalled byte slice. -/
theorem encodedLength_eq_marshal_length (m : Msg) (hwf : m.wf) :
    m.marshalBytes.length = m.encodedLength := by
  cases m <;>
    (try simp_all [Msg.wf, Msg.marshalBytes, Msg.encodedLength,
      VersionRequest.marshalBinary, VersionRequest.encodedLength,
      VersionResponse.marshalBinary, VersionResponse.encodedLength,
      AuthRequest.marshalBinary, AuthRequest.encodedLength,
      AuthResponse.marshalBinary, AuthResponse.encodedLength,
      AttachRequest.marshalBinary, AttachRequest.encodedLength,
      AttachResponse.marshalBinary, AttachResponse.encodedLength,
      ErrorResponse.marshalBinary, ErrorResponse.encodedLength,
      FlushRequest.marshalBinary, FlushRequest.encodedLength,
      FlushResponse.marshalBinary, FlushResponse.encodedLength,
      WalkRequest.marshalBinary, WalkRequest.encodedLength,
      WalkResponse.marshalBinary, WalkResponse.encodedLength,
      OpenRequest.marshalBinary, OpenRequest.encodedLength,
      OpenResponse.marshalBinary, OpenResponse.encodedLength,
      CreateRequest.marshalBinary, CreateRequest.encodedLength,
      CreateResponse.marshalBinary, CreateResponse.encodedLength,
      ReadRequest.marshalBinary, ReadRequest.encodedLength,
      ReadResponse.marshalBinary, ReadResponse.encodedLength,
      WriteRequest.marshalBinary, WriteRequest.encodedLength,
      WriteResponse.marshalBinary, WriteResponse.encodedLength,
      ClunkRequest.marshalBinary, ClunkRequest.encodedLength,
      ClunkResponse.marshalBinary, ClunkResponse.encodedLength,
      RemoveRequest.marshalBinary, RemoveRequest.encodedLength,
      RemoveResponse.marshalBinary, RemoveResponse.encodedLength,
      StatRequest.marshalBinary, StatRequest.encodedLength,
      StatResponse.marshalBinary, StatResponse.encodedLength,
      WriteStatRequest.marshalBinary, WriteStatRequest.encodedLength,
      WriteStatResponse.marshalBinary, WriteStatResponse.encodedLength,
      AuthRequestDotu.encodeBytes, AuthRequestDotu.encodedLength,
      AttachRequestDotu.encodeBytes, AttachRequestDotu.encodedLength,
      ErrorResponseDotu.encodeBytes, ErrorResponseDotu.encodedLength,
      CreateRequestDotu.encodeBytes, CreateRequestDotu.encodedLength,
      StatResponseDotu.encodeBytes, StatResponseDotu.encodedLength,
      WriteStatRequestDotu.encodeBytes, WriteStatRequestDotu.encodedLength,
      SessionRequestDote.encodeBytes, SessionRequestDote.encodedLength,
      SessionResponseDote.encodeBytes, SessionResponseDote.encodedLength,
      SimpleReadRequestDote.encodeBytes, SimpleReadRequestDote.encodedLength,
      SimpleReadResponseDote.encodeBytes,
      SimpleReadResponseDote.encodedLength,
      SimpleWriteRequestDote.encodeBytes,
      SimpleWriteRequestDote.encodedLength,
      SimpleWriteResponseDote.encodeBytes,
      SimpleWriteResponseDote.encodedLength,
      foldl_nwriteString_length, foldl_qids_length,
      flatten_writeString_length, writeString]) <;>
    omega

/-- C4 witness: the theorem applied to a concrete `.e` session request whose
key is 8 bytes. -/
theorem encodedLength_eq_marshal_length_witness :
    (Msg.sessionRequestDote ⟨65535, [1, 2, 3, 4, 5, 6, 7, 8]⟩).wf ∧
      (Msg.sessionRequestDote
        ⟨65535, [1, 2, 3, 4, 5, 6, 7, 8]⟩).marshalBytes.length =
      (Msg.sessionRequestDote ⟨65535, [1, 2, 3, 4, 5, 6, 7, 8]⟩).encodedLength :=
  ⟨rfl, encodedLength_eq_marshal_length _ rfl⟩

set_option maxRecDepth 10000 in
theorem tableRoundTrip_all : ∀ d : Dialect, ∀ mt : Fin 256,
    tableRoundTrip d mt.val = true := by
  decide

/-- C9: per-dialect type-table bijectivity. For every type code the dialect
supports (those where `new_of` succeeds), classifying the empty message that
`new_of` built yields the same code back, and applying `new_of` to that
classification yields the same variant again. -/
theorem typeTable_bijective (d : Dialect) (mt : Fin 256) (v : MsgKind)
    (h : d.newOf mt.val = .ok v) :
    d.typeOf v = .ok mt.val ∧
      ∀ mt2 : Nat, d.typeOf v = .ok mt2 → d.newOf mt2 = .ok v := by
  have hb : (match d.typeOf v with
      | .error _ => false
      | .ok mt2 => decide (mt2 = mt.val) && decide (d.newOf mt2 = .ok v)) =
        true := by
    have hall := tableRoundTrip_all d mt
    unfold tableRoundTrip at hall
    rw [h] at hall
    exact hall
  cases hto : d.typeOf v with
  | error e => rw [hto] at hb; simp at hb
  | ok mt2 =>
    rw [hto] at hb
    simp at hb
    obtain ⟨h1, h2⟩ := hb
    subst h1
    exact ⟨rfl, fun mt3 h3 => by
      cases Except.ok.inj h3
      exact h2⟩

/-- C9 witness: in the `.u` dialect, code 102 (Tauth) builds the Dotu auth
request, which classifies back to 102, which builds the same variant. -/
theorem typeTable_bijective_witness :
    Dialect.dotu.newOf (102 : Fin 256).val = .ok .authRequestDotu ∧
      Dialect.dotu.typeOf .authRequestDotu = .ok (102 : Fin 256).val ∧
      ∀ mt2 : Nat, Dialect.dotu.typeOf .authRequestDotu = .ok mt2 →
        Dialect.dotu.newOf mt2 = .ok .authRequestDotu :=
  ⟨by decide,
    (typeTable_bijective .dotu 102 .authRequestDotu (by decide)).1,
    (typeTable_bijective .dotu 102 .authRequestDotu (by decide)).2⟩

/-- C1 (code bug): the round-trip `unmarshal(marshal(m)) == m` fails for the
direct-indexing revision's CreateResponse. Marshalling a CreateResponse
whose Qid type is 1 (and version 0) and unmarshalling the result returns a
message whose Qid type is 0: the marshaller wrote the type byte at offset 3
where the version write immediately overwrote it. -/
theorem createResponse_roundtrip_fails :
    Rev9p.CreateResponse.unmarshalBinary
        (Rev9p.CreateResponse.marshalBinary ⟨0, ⟨1, 0, 0⟩, 0⟩) =
      .ok ⟨0, ⟨0, 0, 0⟩, 0⟩ ∧
      (⟨0, ⟨0, 0, 0⟩, 0⟩ : CreateResponse) ≠ ⟨0, ⟨1, 0, 0⟩, 0⟩ := by
  decide

/-- C2 (code bug): short input does not produce `ErrPayloadTooShort` but a
runtime panic. `AuthResponse.UnmarshalBinary` of the nread revision slices
`b[2:15]` after reading only the tag, so a 2-byte input aborts with a
slice-bounds panic; `StatResponse.UnmarshalBinary` slices
`b[4 : 4+l]` with the declared inner length `l` unchecked, so a 4-byte
input declaring `l = 5` also panics. -/
theorem unmarshal_short_input_panics :
    AuthResponse.unmarshalBinary [0, 0] = .panicked ∧
      AuthResponse.unmarshalBinary [0, 0] ≠ .fail .payloadTooShort ∧
      StatResponse.unmarshalBinary [0, 0, 5, 0] = .panicked := by
  decide

/-!
## Congruence helpers: reads at offsets ≥ 2 ignore the first two bytes
-/

theorem getD_congr2 (x0 x1 y0 y1 d : Nat) (r : List Nat) (i : Nat)
    (h : 2 ≤ i) :
    (x0 :: x1 :: r).getD i d = (y0 :: y1 :: r).getD i d := by
  obtain ⟨k, rfl⟩ := Nat.exists_eq_add_of_le h
  have e : 2 + k = k + 1 + 1 := by omega
  rw [e]
  simp [List.getD_cons_succ]

theorem r16_congr2 (x0 x1 y0 y1 : Nat) (r : List Nat) (i : Nat)
    (h : 2 ≤ i) :
    r16 (x0 :: x1 :: r) i = r16 (y0 :: y1 :: r) i := by
  unfold r16
  rw [getD_congr2 x0 x1 y0 y1 0 r i h,
    getD_congr2 x0 x1 y0 y1 0 r (i + 1) (by omega)]

theorem r32_congr2 (x0 x1 y0 y1 : Nat) (r : List Nat) (i : Nat)
    (h : 2 ≤ i) :
    r32 (x0 :: x1 :: r) i = r32 (y0 :: y1 :: r) i := by
  unfold r32
  rw [getD_congr2 x0 x1 y0 y1 0 r i h,
    getD_congr2 x0 x1 y0 y1 0 r (i + 1) (by omega),
    getD_congr2 x0 x1 y0 y1 0 r (i + 2) (by omega),
    getD_congr2 x0 x1 y0 y1 0 r (i + 3) (by omega)]

theorem r64_congr2 (x0 x1 y0 y1 : Nat) (r : List Nat) (i : Nat)
    (h : 2 ≤ i) :
    r64 (x0 :: x1 :: r) i = r64 (y0 :: y1 :: r) i := by
  unfold r64
  rw [getD_congr2 x0 x1 y0 y1 0 r i h,
    getD_congr2 x0 x1 y0 y1 0 r (i + 1) (by omega),
    getD_congr2 x0 x1 y0 y1 0 r (i + 2) (by omega),
    getD_congr2 x0 x1 y0 y1 0 r (i + 3) (by omega),
    getD_congr2 x0 x1 y0 y1 0 r (i + 4) (by omega),
    getD_congr2 x0 x1 y0 y1 0 r (i + 5) (by omega),
    getD_congr2 x0 x1 y0 y1 0 r (i + 6) (by omega),
    getD_congr2 x0 x1 y0 y1 0 r (i + 7) (by omega)]

theorem drop_congr2 (x0 x1 y0 y1 : Nat) (r : List Nat) (i : Nat)
    (h : 2 ≤ i) :
    (x0 :: x1 :: r).drop i = (y0 :: y1 :: r).drop i := by
  obtain ⟨k, rfl⟩ := Nat.exists_eq_add_of_le h
  have e : 2 + k = k + 1 + 1 := by omega
  rw [e]
  simp

theorem nreadByte_congr2 (x0 x1 y0 y1 : Nat) (r : List Nat) (i : Nat)
    (h : 2 ≤ i) :
    nreadByte (x0 :: x1 :: r) i = nreadByte (y0 :: y1 :: r) i := by
  unfold nreadByte
  simp only [List.length_cons]
  split
  · rfl
  · rw [getD_congr2 x0 x1 y0 y1 0 r i h]

theorem nreadUint16_congr2 (x0 x1 y0 y1 : Nat) (r : List Nat) (i : Nat)
    (h : 2 ≤ i) :
    nreadUint16 (x0 :: x1 :: r) i = nreadUint16 (y0 :: y1 :: r) i := by
  unfold nreadUint16
  simp only [List.length_cons]
  split
  · rfl
  · rw [r16_congr2 x0 x1 y0 y1 r i h]

theorem nreadUint32_congr2 (x0 x1 y0 y1 : Nat) (r : List Nat) (i : Nat)
    (h : 2 ≤ i) :
    nreadUint32 (x0 :: x1 :: r) i = nreadUint32 (y0 :: y1 :: r) i := by
  unfold nreadUint32
  simp only [List.length_cons]
  split
  · rfl
  · rw [r32_congr2 x0 x1 y0 y1 r i h]

theorem nreadUint64_congr2 (x0 x1 y0 y1 : Nat) (r : List Nat) (i : Nat)
    (h : 2 ≤ i) :
    nreadUint64 (x0 :: x1 :: r) i = nreadUint64 (y0 :: y1 :: r) i := by
  unfold nreadUint64
  simp only [List.length_cons]
  split
  · rfl
  · rw [r64_congr2 x0 x1 y0 y1 r i h]

theorem nreadString_congr2 (x0 x1 y0 y1 : Nat) (r : List Nat) (i : Nat)
    (h : 2 ≤ i) :
    nreadString (x0 :: x1 :: r) i = nreadString (y0 :: y1 :: r) i := by
  unfold nreadString
  simp only [List.length_cons]
  rw [r16_congr2 x0 x1 y0 y1 r i h, drop_congr2 x0 x1 y0 y1 r (i + 2)
    (by omega)]

theorem nreadUint16_cursor {b : List Nat} {i v n : Nat}
    (h : nreadUint16 b i = .ok (v, n)) : n = i + 2 := by
  unfold nreadUint16 at h
  split at h
  · exact absurd h (by simp)
  · exact (Prod.mk.injEq .. ▸ Except.ok.inj h).2.symm ▸ rfl

theorem nreadUint32_cursor {b : List Nat} {i v n : Nat}
    (h : nreadUint32 b i = .ok (v, n)) : n = i + 4 := by
  unfold nreadUint32 at h
  split at h
  · exact absurd h (by simp)
  · exact (Prod.mk.injEq .. ▸ Except.ok.inj h).2.symm ▸ rfl

theorem nreadUint64_cursor {b : List Nat} {i v n : Nat}
    (h : nreadUint64 b i = .ok (v, n)) : n = i + 8 := by
  unfold nreadUint64 at h
  split at h
  · exact absurd h (by simp)
  · exact (Prod.mk.injEq .. ▸ Except.ok.inj h).2.symm ▸ rfl

theorem nreadByte_cursor {b : List Nat} {i v n : Nat}
    (h : nreadByte b i = .ok (v, n)) : n = i + 1 := by
  unfold nreadByte at h
  split at h
  · exact absurd h (by simp)
  · exact (Prod.mk.injEq .. ▸ Except.ok.inj h).2.symm ▸ rfl

theorem nreadString_cursor {b : List Nat} {i : Nat} {s : List Nat} {n : Nat}
    (h : nreadString b i = .ok (s, n)) : i + 2 ≤ n := by
  unfold nreadString at h
  split at h
  · exact absurd h (by simp)
  · dsimp only at h
    split at h
    · exact absurd h (by simp)
    · have := (Prod.mk.injEq .. ▸ Except.ok.inj h).2
      omega

theorem stat_unm_congr (x0 x1 y0 y1 : Nat) (rest : List Nat) :
    Stat.unmarshalBinary (x0 :: x1 :: rest) =
      Stat.unmarshalBinary (y0 :: y1 :: rest) := by
  have h0x : nreadUint16 (x0 :: x1 :: rest) 0 =
      .ok (r16 (x0 :: x1 :: rest) 0, 0 + 2) := by
    unfold nreadUint16
    rw [if_neg (by simp only [List.length_cons]; omega)]
  have h0y : nreadUint16 (y0 :: y1 :: rest) 0 =
      .ok (r16 (y0 :: y1 :: rest) 0, 0 + 2) := by
    unfold nreadUint16
    rw [if_neg (by simp only [List.length_cons]; omega)]
  unfold Stat.unmarshalBinary
  rw [h0x, h0y]
  dsimp only
  rw [nreadUint16_congr2 x0 x1 y0 y1 rest (0 + 2) (by omega)]
  cases h1 : nreadUint16 (y0 :: y1 :: rest) (0 + 2) with
  | error e => rfl
  | ok p =>
  obtain ⟨ty, n1⟩ := p
  have hn1 := nreadUint16_cursor h1
  dsimp only
  rw [nreadUint32_congr2 x0 x1 y0 y1 rest n1 (by omega)]
  cases h2 : nreadUint32 (y0 :: y1 :: rest) n1 with
  | error e => rfl
  | ok p =>
  obtain ⟨dev, n2⟩ := p
  have hn2 := nreadUint32_cursor h2
  dsimp only
  rw [nreadByte_congr2 x0 x1 y0 y1 rest n2 (by omega)]
  cases h3 : nreadByte (y0 :: y1 :: rest) n2 with
  | error e => rfl
  | ok p =>
  obtain ⟨qt, n3⟩ := p
  have hn3 := nreadByte_cursor h3
  dsimp only
  rw [nreadUint32_congr2 x0 x1 y0 y1 rest n3 (by omega)]
  cases h4 : nreadUint32 (y0 :: y1 :: rest) n3 with
  | error e => rfl
  | ok p =>
  obtain ⟨qv, n4⟩ := p
  have hn4 := nreadUint32_cursor h4
  dsimp only
  rw [nreadUint64_congr2 x0 x1 y0 y1 rest n4 (by omega)]
  cases h5 : nreadUint64 (y0 :: y1 :: rest) n4 with
  | error e => rfl
  | ok p =>
  obtain ⟨qp, n5⟩ := p
  have hn5 := nreadUint64_cursor h5
  dsimp only
  rw [nreadUint32_congr2 x0 x1 y0 y1 rest n5 (by omega)]
  cases h6 : nreadUint32 (y0 :: y1 :: rest) n5 with
  | error e => rfl
  | ok p =>
  obtain ⟨mode, n6⟩ := p
  have hn6 := nreadUint32_cursor h6
  dsimp only
  rw [nreadUint32_congr2 x0 x1 y0 y1 rest n6 (by omega)]
  cases h7 : nreadUint32 (y0 :: y1 :: rest) n6 with
  | error e => rfl
  | ok p =>
  obtain ⟨at_, n7⟩ := p
  have hn7 := nreadUint32_cursor h7
  dsimp only
  rw [nreadUint32_congr2 x0 x1 y0 y1 rest n7 (by omega)]
  cases h8 : nreadUint32 (y0 :: y1 :: rest) n7 with
  | error e => rfl
  | ok p =>
  obtain ⟨mt, n8⟩ := p
  have hn8 := nreadUint32_cursor h8
  dsimp only
  rw [nreadUint64_congr2 x0 x1 y0 y1 rest n8 (by omega)]
  cases h9 : nreadUint64 (y0 :: y1 :: rest) n8 with
  | error e => rfl
  | ok p =>
  obtain ⟨len, n9⟩ := p
  have hn9 := nreadUint64_cursor h9
  dsimp only
  rw [nreadString_congr2 x0 x1 y0 y1 rest n9 (by omega)]
  cases h10 : nreadString (y0 :: y1 :: rest) n9 with
  | error e => rfl
  | ok p =>
  obtain ⟨nm, n10⟩ := p
  have hn10 := nreadString_cursor h10
  dsimp only
  rw [nreadString_congr2 x0 x1 y0 y1 rest n10 (by omega)]
  cases h11 : nreadString (y0 :: y1 :: rest) n10 with
  | error e => rfl
  | ok p =>
  obtain ⟨uid, n11⟩ := p
  have hn11 := nreadString_cursor h11
  dsimp only
  rw [nreadString_congr2 x0 x1 y0 y1 rest n11 (by omega)]
  cases h12 : nreadString (y0 :: y1 :: rest) n11 with
  | error e => rfl
  | ok p =>
  obtain ⟨gid, n12⟩ := p
  have hn12 := nreadString_cursor h12
  dsimp only
  rw [nreadString_congr2 x0 x1 y0 y1 rest n12 (by omega)]

theorem rev9p_stat_unm_congr (x0 x1 y0 y1 : Nat) (rest : List Nat) :
    Rev9p.Stat.unmarshalBinary (x0 :: x1 :: rest) =
      Rev9p.Stat.unmarshalBinary (y0 :: y1 :: rest) := by
  unfold Rev9p.Stat.unmarshalBinary
  simp only [List.length_cons]
  rw [r16_congr2 x0 x1 y0 y1 rest 41 (by omega)]
  set L1 := r16 (y0 :: y1 :: rest) 41 with hL1
  rw [r16_congr2 x0 x1 y0 y1 rest (41 + 2 + L1) (by omega)]
  set L2 := r16 (y0 :: y1 :: rest) (41 + 2 + L1) with hL2
  rw [r16_congr2 x0 x1 y0 y1 rest (41 + 2 + L1 + 2 + L2) (by omega)]
  set L3 := r16 (y0 :: y1 :: rest) (41 + 2 + L1 + 2 + L2) with hL3
  rw [r16_congr2 x0 x1 y0 y1 rest (41 + 2 + L1 + 2 + L2 + 2 + L3) (by omega)]
  rw [r16_congr2 x0 x1 y0 y1 rest 2 (by omega),
    r32_congr2 x0 x1 y0 y1 rest 4 (by omega),
    getD_congr2 x0 x1 y0 y1 0 rest 8 (by omega),
    r32_congr2 x0 x1 y0 y1 rest 9 (by omega),
    r64_congr2 x0 x1 y0 y1 rest 13 (by omega),
    r32_congr2 x0 x1 y0 y1 rest 21 (by omega),
    r32_congr2 x0 x1 y0 y1 rest 25 (by omega),
    r32_congr2 x0 x1 y0 y1 rest 29 (by omega),
    r64_congr2 x0 x1 y0 y1 rest 33 (by omega),
    drop_congr2 x0 x1 y0 y1 rest (41 + 2) (by omega),
    drop_congr2 x0 x1 y0 y1 rest (41 + 2 + L1 + 2) (by omega),
    drop_congr2 x0 x1 y0 y1 rest (41 + 2 + L1 + 2 + L2 + 2) (by omega),
    drop_congr2 x0 x1 y0 y1 rest (41 + 2 + L1 + 2 + L2 + 2 + L3 + 2)
      (by omega)]

theorem statDotu_decode_congr (x0 x1 y0 y1 : Nat) (r : List Nat) :
    StatDotu.decode (x0 :: x1 :: r) = StatDotu.decode (y0 :: y1 :: r) := by
  have hx : readUint16 (x0 :: x1 :: r) = .ok (x0 + 256 * x1, r) := by
    unfold readUint16 readBytes
    rw [if_neg (by simp only [List.length_cons]; omega)]
    rfl
  have hy : readUint16 (y0 :: y1 :: r) = .ok (y0 + 256 * y1, r) := by
    unfold readUint16 readBytes
    rw [if_neg (by simp only [List.length_cons]; omega)]
    rfl
  unfold StatDotu.decode
  rw [hx, hy]

/-- C10: Stat decoding (all three revisions: the nread-based
`Stat.UnmarshalBinary`, the direct-indexing `Stat.UnmarshalBinary`, and the
stream-based `StatDotu.Decode`) reads and discards the leading 2-byte inner
size without using its value: two inputs that differ only in those two
bytes decode to identical values with identical success/error outcomes. -/
theorem stat_decode_ignores_inner_size :
    (∀ (x0 x1 y0 y1 : Nat) (rest : List Nat),
      Stat.unmarshalBinary (x0 :: x1 :: rest) =
        Stat.unmarshalBinary (y0 :: y1 :: rest)) ∧
    (∀ (x0 x1 y0 y1 : Nat) (rest : List Nat),
      Rev9p.Stat.unmarshalBinary (x0 :: x1 :: rest) =
        Rev9p.Stat.unmarshalBinary (y0 :: y1 :: rest)) ∧
    (∀ (x0 x1 y0 y1 : Nat) (r : List Nat),
      StatDotu.decode (x0 :: x1 :: r) = StatDotu.decode (y0 :: y1 :: r)) :=
  ⟨stat_unm_congr, rev9p_stat_unm_congr, statDotu_decode_congr⟩

theorem getD_of_take_eq {l R : List Nat} {p a i : Nat}
    (h : (l.drop p).take a = R.take a) (hi : i < a) :
    l.getD (p + i) 0 = R.getD i 0 := by
  have h1 : (l.drop p).get? i = l.get? (p + i) := List.get?_drop l p i
  have h2 : ((l.drop p).take a).get? i = (l.drop p).get? i :=
    List.get?_take hi
  have h3 : (R.take a).get? i = R.get? i := List.get?_take hi
  simp only [List.getD_eq_getD_get?]
  rw [← h1, ← h2, h, h3]

theorem r32_of_take_eq {l R : List Nat} {p a : Nat}
    (h : (l.drop p).take a = R.take a) (ha : 4 ≤ a) :
    r32 l p = r32 R 0 := by
  unfold r32
  have e0 := getD_of_take_eq h (show 0 < a by omega)
  have e1 := getD_of_take_eq h (show 1 < a by omega)
  have e2 := getD_of_take_eq h (show 2 < a by omega)
  have e3 := getD_of_take_eq h (show 3 < a by omega)
  simp only [Nat.add_zero] at e0
  rw [e0, e1, e2, e3]

theorem r32_w32_append (v : Nat) (rest : List Nat) :
    r32 (w32 v ++ rest) 0 = v % 4294967296 := by
  unfold r32 w32
  simp only [List.cons_append, List.getD_cons_zero, List.getD_cons_succ]
  omega

theorem uint32_sub5 (s : Nat) (h5 : 5 ≤ s) (h32 : s < 4294967296) :
    (s + 4294967296 - 5) % 4294967296 = s - 5 := by
  omega

theorem greedyBody_spec {V M : Type} (unm : V → List Nat → DRes M)
    (msize : Nat) (st : DecSt V) (rd : RdSt) (v : V) (body R' : List Nat)
    (hinv : PInv msize st.size st rd (body ++ R'))
    (hsz : st.size = body.length)
    (hneed : st.needed ≤ 0) :
    ∃ st', GInv msize st' rd R' ∧
      greedyBody unm st v =
        (match unm v body with
         | .ok msg => GStep.msg msg st'
         | .fail e => GStep.err e
         | .panicked => GStep.panicked) := by
  obtain ⟨hbl, hpt, htm, htake, hRlen, hrd, hnd⟩ := hinv
  have havail : st.size ≤ st.total - st.ptr := by omega
  have hrange : st.ptr + st.size ≤ st.buffer.length := by omega
  have hsub : (st.buffer.drop st.ptr).take st.size = body := by
    have h1 : ((st.buffer.drop st.ptr).take (st.total - st.ptr)).take st.size
        = (st.buffer.drop st.ptr).take st.size := by
      rw [List.take_take, Nat.min_eq_left havail]
    have h2 : ((body ++ R').take (st.total - st.ptr)).take st.size
        = (body ++ R').take st.size := by
      rw [List.take_take, Nat.min_eq_left havail]
    have h3 : (body ++ R').take st.size = body := by
      rw [hsz, List.take_left]
    rw [← h1, htake, h2, h3]
  have hslice : goSlice st.buffer st.ptr (st.ptr + st.size) = some body := by
    unfold goSlice
    rw [if_pos ⟨by omega, hrange⟩]
    rw [Nat.add_sub_cancel_left, hsub]
  refine ⟨{ st with
    needed := st.needed + (HeaderSize : Int)
    ptr := st.ptr + st.size
    size := 0
    m := none }, ?_, ?_⟩
  · constructor
    · refine ⟨hbl, by simp; omega, htm, ?_, ?_, ?_, ?_⟩
      · show (st.buffer.drop (st.ptr + st.size)).take
            (st.total - (st.ptr + st.size)) =
          R'.take (st.total - (st.ptr + st.size))
        have hd : st.buffer.drop (st.ptr + st.size) =
            (st.buffer.drop st.ptr).drop st.size := by
          rw [List.drop_drop, Nat.add_comm]
        rw [hd]
        have e1 : ((st.buffer.drop st.ptr).drop st.size).take
            (st.total - st.ptr - st.size) =
            ((st.buffer.drop st.ptr).take (st.total - st.ptr)).drop st.size
            := by
          rw [List.drop_take]
        have e2 : ((body ++ R').take (st.total - st.ptr)).drop st.size =
            ((body ++ R').drop st.size).take (st.total - st.ptr - st.size)
            := by
          rw [List.drop_take]
        have e3 : (body ++ R').drop st.size = R' := by
          rw [hsz, List.drop_left]
        have e4 : st.total - (st.ptr + st.size) =
            st.total - st.ptr - st.size := by omega
        rw [e4, e1, htake, e2, e3]
      · show st.total - (st.ptr + st.size) ≤ R'.length
        have := List.length_append body R'
        omega
      · show rd.bytes = R'.drop (st.total - (st.ptr + st.size))
        rw [hrd]
        have e3 : (body ++ R').drop st.size = R' := by
          rw [hsz, List.drop_left]
        rw [show st.total - st.ptr =
          st.size + (st.total - st.ptr - st.size) by omega]
        rw [← List.drop_drop, e3]
        congr 1
        omega
      · show st.needed + (HeaderSize : Int) =
          (HeaderSize : Int) - ((st.total : Int) - (st.ptr + st.size : Nat))
        push_cast
        omega
    · rfl
  · unfold greedyBody
    rw [hslice]
    dsimp only
    cases unm v body <;> rfl

theorem greedyCompact_spec {V : Type} (msize req : Nat) (st : DecSt V)
    (rd : RdSt) (RB : List Nat)
    (hinv : PInv msize req st rd RB)
    (hreq : req ≤ msize) :
    PInv msize req (greedyCompact st) rd RB ∧
      (greedyCompact st).m = st.m ∧
      (greedyCompact st).size = st.size ∧
      (greedyCompact st).needed = st.needed ∧
      st.needed ≤ ((greedyCompact st).buffer.length : Int) -
        ((greedyCompact st).total : Int) := by
  obtain ⟨hbl, hpt, htm, htake, hRlen, hrd, hnd⟩ := hinv
  unfold greedyCompact
  split
  case isFalse h =>
    refine ⟨⟨hbl, hpt, htm, htake, hRlen, hrd, hnd⟩, rfl, rfl, rfl, ?_⟩
    rw [hbl]
    omega
  case isTrue h =>
    have hmov : ((st.buffer.drop st.ptr).take (st.total - st.ptr)).length =
        st.total - st.ptr := by
      simp [List.length_take, List.length_drop]
      omega
    have hlen : (putBytes st.buffer 0
        ((st.buffer.drop st.ptr).take (st.total - st.ptr))).length = msize := by
      unfold putBytes
      simp only [List.take_zero, List.nil_append, List.length_append,
        List.length_drop, hmov]
      rw [hbl] at *
      simp
      omega
    have htk : ((putBytes st.buffer 0
        ((st.buffer.drop st.ptr).take (st.total - st.ptr))).drop 0).take
          (st.total - st.ptr - 0) = RB.take (st.total - st.ptr - 0) := by
      unfold putBytes
      simp only [List.take_zero, List.nil_append, List.drop_zero,
        Nat.sub_zero]
      rw [List.take_append_of_le_length (by rw [hmov])]
      rw [List.take_take, Nat.min_self]
      exact htake
    refine ⟨⟨hlen, by simp, by show st.total - st.ptr ≤ msize; omega, htk,
      by simpa using hRlen, ?_, ?_⟩, rfl, rfl, rfl, ?_⟩
    · simpa using hrd
    · simp only [Nat.sub_zero]
      rw [hnd]
      push_cast
      omega
    · dsimp only
      rw [hlen]
      omega

theorem greedyReadStep_spec {V : Type} (msize req : Nat) (st : DecSt V)
    (rd : RdSt) (RB : List Nat)
    (hinv : PInv msize req st rd RB)
    (hneed : 0 < st.needed)
    (hfree : st.needed ≤ (st.buffer.length : Int) - (st.total : Int))
    (hne : rd.bytes ≠ []) :
    ∃ n rd',
      readStep rd (st.buffer.length - st.total) = (n, none, rd') ∧
      1 ≤ n ∧ n ≤ rd.bytes.length ∧ rd'.bytes = rd.bytes.drop n ∧
      PInv msize req
        { st with
          buffer := putBytes st.buffer st.total (rd.bytes.take n)
          total := st.total + n
          needed := st.needed - (n : Int) } rd' RB := by
  obtain ⟨hbl, hpt, htm, htake, hRlen, hrd, hnd⟩ := hinv
  have hreq1 : 1 ≤ st.buffer.length - st.total := by omega
  set n := min (min (rd.frag.headD 0 + 1) (st.buffer.length - st.total))
    rd.bytes.length with hn
  have hbne : 1 ≤ rd.bytes.length := by
    cases hb : rd.bytes with
    | nil => exact absurd hb hne
    | cons a l => simp [hb]
  have hn1 : 1 ≤ n := by
    rw [hn]
    omega
  have hnb : n ≤ rd.bytes.length := by rw [hn]; omega
  have hnr : n ≤ st.buffer.length - st.total := by rw [hn]; omega
  have hstep : readStep rd (st.buffer.length - st.total) =
      (n, none, ⟨rd.bytes.drop n, rd.frag.tail⟩) := by
    unfold readStep
    rw [if_neg (by simp [List.isEmpty_iff]; exact hne)]
  refine ⟨n, ⟨rd.bytes.drop n, rd.frag.tail⟩, hstep, hn1, hnb, rfl, ?_⟩
  have hchunklen : (rd.bytes.take n).length = n := by
    simp [List.length_take]
    omega
  have hblen : (putBytes st.buffer st.total (rd.bytes.take n)).length =
      msize := by
    unfold putBytes
    simp only [List.length_append, List.length_take, List.length_drop,
      hchunklen]
    omega
  have havail : st.total - st.ptr ≤ RB.length := hRlen
  have hbyteslen : rd.bytes.length = RB.length - (st.total - st.ptr) := by
    rw [hrd, List.length_drop]
  have hdropA : (putBytes st.buffer st.total (rd.bytes.take n)).drop st.ptr =
      RB.take (st.total - st.ptr) ++ rd.bytes.take n ++
        st.buffer.drop (st.total + n) := by
    unfold putBytes
    rw [show st.total + (rd.bytes.take n).length = st.total + n by
      rw [hchunklen]]
    rw [List.append_assoc]
    rw [List.drop_append_of_le_length (by simp [List.length_take]; omega)]
    rw [List.drop_take]
    rw [htake, ← List.append_assoc]
  refine ⟨hblen, by simp; omega, by simp; omega, ?_, ?_, ?_, ?_⟩
  · show ((putBytes st.buffer st.total (rd.bytes.take n)).drop st.ptr).take
        (st.total + n - st.ptr) = RB.take (st.total + n - st.ptr)
    rw [hdropA]
    have e1 : st.total + n - st.ptr = (st.total - st.ptr) + n := by omega
    rw [e1]
    have e2 : (RB.take (st.total - st.ptr) ++ rd.bytes.take n ++
        st.buffer.drop (st.total + n)).take ((st.total - st.ptr) + n) =
        RB.take (st.total - st.ptr) ++
          ((rd.bytes.take n ++ st.buffer.drop (st.total + n)).take n) := by
      rw [List.append_assoc]
      rw [show (st.total - st.ptr) + n =
        (RB.take (st.total - st.ptr)).length + n by
          simp [List.length_take]; omega]
      rw [List.take_append]
    rw [e2]
    have e3 : (rd.bytes.take n ++ st.buffer.drop (st.total + n)).take n =
        rd.bytes.take n := by
      rw [List.take_append_of_le_length (by rw [hchunklen])]
      rw [List.take_take, Nat.min_self]
    rw [e3, hrd]
    rw [← List.take_add ..]
  · show st.total + n - st.ptr ≤ RB.length
    omega
  · show (rd.bytes.drop n : List Nat) = RB.drop (st.total + n - st.ptr)
    rw [hrd, List.drop_drop]
    congr 1
    omega
  · show st.needed - (n : Int) =
      (req : Int) - ((st.total + n : Nat) - (st.ptr : Int))
    rw [hnd]
    push_cast
    ring

/-- Advancing the read cursor past a fully buffered prefix `pre` of the
remaining input re-establishes the buffering invariant for the rest, at a
new requirement `req'`, for any state agreeing with the advanced one. -/
theorem PInv_shift {V : Type} {msize req : Nat} {st : DecSt V} {rd : RdSt}
    {pre R' : List Nat} (req' : Nat) (st' : DecSt V)
    (hinv : PInv msize req st rd (pre ++ R'))
    (hk : pre.length ≤ st.total - st.ptr)
    (hbuf : st'.buffer = st.buffer) (hptr : st'.ptr = st.ptr + pre.length)
    (htot : st'.total = st.total)
    (hnd : st'.needed =
      (req' : Int) - ((st.total : Int) - ((st.ptr : Int) + pre.length))) :
    PInv msize req' st' rd R' := by
  obtain ⟨hbl, hpt, htm, htake, hRlen, hrd, hnd0⟩ := hinv
  have hlapp := List.length_append pre R'
  refine ⟨?_, ?_, ?_, ?_, ?_, ?_, ?_⟩
  · rw [hbuf]; exact hbl
  · rw [hptr, htot]; omega
  · rw [htot]; exact htm
  · show (st'.buffer.drop st'.ptr).take (st'.total - st'.ptr) =
      R'.take (st'.total - st'.ptr)
    rw [hbuf, hptr, htot]
    have hd : st.buffer.drop (st.ptr + pre.length) =
        (st.buffer.drop st.ptr).drop pre.length := by
      rw [List.drop_drop, Nat.add_comm]
    rw [hd]
    have e1 : ((st.buffer.drop st.ptr).drop pre.length).take
        (st.total - st.ptr - pre.length) =
        ((st.buffer.drop st.ptr).take (st.total - st.ptr)).drop pre.length
        := by
      rw [List.drop_take]
    have e2 : ((pre ++ R').take (st.total - st.ptr)).drop pre.length =
        ((pre ++ R').drop pre.length).take (st.total - st.ptr - pre.length)
        := by
      rw [List.drop_take]
    have e3 : (pre ++ R').drop pre.length = R' := List.drop_left pre R'
    have e4 : st.total - (st.ptr + pre.length) =
        st.total - st.ptr - pre.length := by omega
    rw [e4, e1, htake, e2, e3]
  · show st'.total - st'.ptr ≤ R'.length
    rw [hptr, htot]
    omega
  · show rd.bytes = R'.drop (st'.total - st'.ptr)
    rw [hptr, htot, hrd]
    have e3 : (pre ++ R').drop pre.length = R' := List.drop_left pre R'
    rw [show st.total - st.ptr =
      pre.length + (st.total - st.ptr - pre.length) by omega]
    rw [← List.drop_drop, e3]
    congr 1
    omega
  · rw [hnd, hptr, htot]
    push_cast
    ring

/-- While bytes are still missing, a pending transport error surfaces as
the call's result on the next pass of the outer loop. -/
theorem greedyLoop_deferred_err {V M : Type}
    (protoM : Nat → Except QErr V) (unm : V → List Nat → DRes M)
    (fuel : Nat) (st : DecSt V) (rd : RdSt) (e : QErr)
    (hneed : 0 < st.needed) :
    greedyLoop protoM unm (fuel + 1) st rd (some e) = .err e := by
  unfold greedyLoop greedyInner
  rw [if_neg (by omega)]

/-- One pass of the outer loop while bytes are missing and the transport
still has some: the inner loop defers, the buffer is compacted, and one
read lands between 1 and all remaining bytes, preserving the invariant. -/
theorem greedyLoop_drain_step {V M : Type}
    (protoM : Nat → Except QErr V) (unm : V → List Nat → DRes M)
    (msize req fuel : Nat) (st : DecSt V) (rd : RdSt) (RB : List Nat)
    (hinv : PInv msize req st rd RB)
    (hneed : 0 < st.needed)
    (hreq : req ≤ msize)
    (hne : rd.bytes ≠ []) :
    ∃ n rd' st3,
      greedyLoop protoM unm (fuel + 1) st rd none =
        greedyLoop protoM unm fuel st3 rd' none ∧
      1 ≤ n ∧ n ≤ rd.bytes.length ∧ rd'.bytes = rd.bytes.drop n ∧
      PInv msize req st3 rd' RB ∧ st3.m = st.m ∧ st3.size = st.size ∧
      st3.needed = st.needed - (n : Int) := by
  obtain ⟨hinv2, hm2, hsz2, hnd2, hfree2⟩ :=
    greedyCompact_spec msize req st rd RB hinv hreq
  obtain ⟨n, rd', hstep, hn1, hnb, hrdb, hinv3⟩ :=
    greedyReadStep_spec msize req (greedyCompact st) rd RB hinv2
      (by rw [hnd2]; exact hneed) (by rw [hnd2]; exact hfree2) hne
  refine ⟨n, rd', _, ?_, hn1, hnb, hrdb, hinv3, ?_, ?_, ?_⟩
  · conv_lhs => rw [greedyLoop]
    rw [show greedyInner protoM unm st = .cont st by
      unfold greedyInner; rw [if_neg (by omega)]]
    dsimp only
    rw [hstep]
  · show (greedyCompact st).m = st.m
    exact hm2
  · show (greedyCompact st).size = st.size
    exact hsz2
  · show (greedyCompact st).needed - (n : Int) = st.needed - (n : Int)
    rw [hnd2]

/-- If fewer bytes remain (buffered plus transport) than the current parse
step requires, the call drains the transport and reports its I/O error. -/
theorem greedyLoop_incomplete {V M : Type}
    (protoM : Nat → Except QErr V) (unm : V → List Nat → DRes M)
    (msize req : Nat) (RB : List Nat) :
    ∀ fuel st rd, PInv msize req st rd RB → RB.length < req → req ≤ msize →
    rd.bytes.length + 2 ≤ fuel →
    greedyLoop protoM unm fuel st rd none = GOut.err .ioError := by
  intro fuel
  induction fuel with
  | zero => intro st rd _ _ _ hfuel; omega
  | succ f ih =>
    intro st rd hinv hshort hreq hfuel
    have hneed : 0 < st.needed := by
      obtain ⟨_, _, _, _, hRlen, _, hnd⟩ := hinv
      rw [hnd]; omega
    cases hb : rd.bytes with
    | cons a l =>
      obtain ⟨n, rd', st3, heq, hn1, hnb, hrdb, hinv3, _, _, hnd3⟩ :=
        greedyLoop_drain_step protoM unm msize req f st rd RB hinv hneed
          hreq (by rw [hb]; simp)
      rw [heq]
      refine ih st3 rd' hinv3 hshort hreq ?_
      rw [hrdb, List.length_drop]
      omega
    | nil =>
      have hstep : readStep rd
          ((greedyCompact st).buffer.length - (greedyCompact st).total) =
          (0, some .ioError, rd) := by
        unfold readStep
        rw [if_pos (by rw [List.isEmpty_iff]; exact hb)]
      obtain ⟨_, _, _, hnd2, _⟩ :=
        greedyCompact_spec msize req st rd RB hinv hreq
      conv_lhs => rw [greedyLoop]
      rw [show greedyInner protoM unm st = .cont st by
        unfold greedyInner; rw [if_neg (by omega)]]
      dsimp only
      rw [hstep]
      obtain ⟨f2, rfl⟩ : ∃ f2, f = f2 + 1 := by
        refine ⟨f - 1, ?_⟩
        rw [hb] at hfuel
        simp at hfuel
        omega
      rw [greedyLoop_deferred_err]
      show (0:Int) < (greedyCompact st).needed - ((0:Nat):Int)
      rw [hnd2]
      push_cast
      omega

/-- Body phase of the outer loop: with message `v` pending and `size` the
declared body length, the loop reads until the body is buffered and returns
the unmarshal's verdict on exactly the body bytes. -/
theorem greedyLoopB {V M : Type}
    (protoM : Nat → Except QErr V) (unm : V → List Nat → DRes M)
    (msize : Nat) (v : V) (body R' : List Nat)
    (hble : body.length ≤ msize) :
    ∀ fuel st rd, PInv msize body.length st rd (body ++ R') →
    st.m = some v → st.size = body.length →
    st.needed.toNat + 1 ≤ fuel →
    BodyOut unm msize body R' v (greedyLoop protoM unm fuel st rd none) := by
  intro fuel
  induction fuel with
  | zero => intro st rd _ _ _ hfuel; omega
  | succ f ih =>
    intro st rd hinv hm hsz hfuel
    by_cases hle : st.needed ≤ 0
    · obtain ⟨st', hginv, hbody⟩ :=
        greedyBody_spec unm msize st rd v body R'
          (by rw [hsz]; exact hinv) hsz hle
      have hL : greedyLoop protoM unm (f + 1) st rd none =
          (match unm v body with
           | .ok m => GOut.msg m st' rd
           | .fail e => GOut.err e
           | .panicked => GOut.panicked) := by
        conv_lhs => rw [greedyLoop]
        rw [show greedyInner protoM unm st = greedyBody unm st v by
          unfold greedyInner; rw [if_pos hle, hm]]
        rw [hbody]
        cases unm v body <;> rfl
      rw [hL]
      unfold BodyOut
      cases h : unm v body with
      | ok m => exact ⟨st', rd, rfl, hginv⟩
      | fail e => rfl
      | panicked => rfl
    · have hne : rd.bytes ≠ [] := by
        obtain ⟨_, _, _, _, hRlen, hrd, hnd⟩ := hinv
        have hlapp := List.length_append body R'
        have : 0 < rd.bytes.length := by
          rw [hrd, List.length_drop]
          omega
        intro hnil
        rw [hnil] at this
        simp at this
      obtain ⟨n, rd', st3, heq, hn1, hnb, hrdb, hinv3, hm3, hsz3, hnd3⟩ :=
        greedyLoop_drain_step protoM unm msize body.length f st rd
          (body ++ R') hinv (by omega) hble hne
      rw [heq]
      refine ih st3 rd' hinv3 (by rw [hm3]; exact hm)
        (by rw [hsz3]; exact hsz) ?_
      rw [hnd3]
      omega

theorem getD4_w32 (x a : Nat) (rest : List Nat) :
    (w32 x ++ a :: rest).getD 4 0 = a := by
  unfold w32
  rfl

theorem frame_bytes_length (f : Frame) :
    f.bytes.length = f.body.length + HeaderSize := by
  unfold Frame.bytes
  simp [w32_length, HeaderSize]
  omega

theorem frame_bytes_shape (f : Frame) (R' : List Nat) :
    f.bytes ++ R' =
      w32 (f.body.length + HeaderSize) ++ (f.mt % 256 :: (f.body ++ R')) := by
  unfold Frame.bytes
  simp [List.append_assoc]

/-- What the inner loop does with a full header of frame `f` buffered and
no message pending: an unsupported type code errors out; a supported one
yields the pending-body state (requirement = the declared body length),
running the body arm at once if the body is already buffered. -/
theorem greedyHeader_spec {V M : Type}
    (protoM : Nat → Except QErr V) (unm : V → List Nat → DRes M)
    (msize : Nat) (st : DecSt V) (rd : RdSt) (f : Frame) (R' : List Nat)
    (hinv : PInv msize HeaderSize st rd (f.bytes ++ R'))
    (hm : st.m = none)
    (hwf : f.wf msize)
    (hm32 : msize < 4294967296)
    (hle : st.needed ≤ 0) :
    (∀ e, protoM f.mt = .error e → greedyInner protoM unm st = .err e) ∧
    (∀ v, protoM f.mt = .ok v →
      ∃ st', PInv msize f.body.length st' rd (f.body ++ R') ∧
        st'.m = some v ∧ st'.size = f.body.length ∧
        st'.needed = st.needed + (f.body.length : Int) ∧
        st'.total = st.total ∧ st'.ptr = st.ptr + HeaderSize ∧
        greedyInner protoM unm st =
          if st'.needed ≤ 0 then greedyBody unm st' v else .cont st') := by
  obtain ⟨hwf1, hwf2⟩ := hwf
  have hH : HeaderSize = 5 := rfl
  obtain ⟨hbl, hpt, htm, htake, hRlen, hrd, hnd⟩ := hinv
  have h5 : 5 ≤ st.total - st.ptr := by
    rw [hH] at hnd
    omega
  have hs : r32 st.buffer st.ptr = f.body.length + HeaderSize := by
    rw [r32_of_take_eq htake (by omega)]
    rw [frame_bytes_shape, r32_w32_append]
    omega
  have hmt : st.buffer.getD (st.ptr + 4) 0 = f.mt := by
    have h4 := getD_of_take_eq htake (show 4 < st.total - st.ptr by omega)
    rw [h4, frame_bytes_shape, getD4_w32]
    omega
  have harith : (f.body.length + HeaderSize + 4294967296 - HeaderSize) %
      4294967296 = f.body.length := by
    rw [hH]
    omega
  constructor
  · intro e hp
    unfold greedyInner
    rw [if_pos hle, hm]
    dsimp only
    rw [hs]
    rw [if_neg (by omega)]
    rw [harith, hmt, hp]
  · intro v hp
    refine ⟨{ st with
        size := f.body.length
        needed := st.needed + (f.body.length : Int)
        ptr := st.ptr + HeaderSize
        m := some v }, ?_, rfl, rfl, rfl, rfl, rfl, ?_⟩
    · have hpre : (w32 (f.body.length + HeaderSize) ++ [f.mt % 256]).length
          = HeaderSize := by
        simp [w32_length, hH]
      refine @PInv_shift V msize HeaderSize st rd
        (w32 (f.body.length + HeaderSize) ++ [f.mt % 256]) (f.body ++ R')
        f.body.length _ ?_ ?_ rfl ?_ rfl ?_
      · show PInv msize HeaderSize st rd
          ((w32 (f.body.length + HeaderSize) ++ [f.mt % 256]) ++
            (f.body ++ R'))
        rw [List.append_assoc, List.singleton_append, ← frame_bytes_shape]
        exact ⟨hbl, hpt, htm, htake, hRlen, hrd, hnd⟩
      · rw [hpre]
        omega
      · show st.ptr + HeaderSize = st.ptr +
          (w32 (f.body.length + HeaderSize) ++ [f.mt % 256]).length
        rw [hpre]
      · show st.needed + (f.body.length : Int) = (f.body.length : Int) -
          ((st.total : Int) - ((st.ptr : Int) +
            (w32 (f.body.length + HeaderSize) ++ [f.mt % 256]).length))
        rw [hpre, hH] at *
        rw [hnd]
        push_cast
        ring
    · unfold greedyInner
      rw [if_pos hle, hm]
      dsimp only
      rw [hs]
      rw [if_neg (by omega)]
      rw [harith, hmt, hp]

/-- One `greedyRead` call consumes exactly the frame at the head of the
remaining input (given fuel covering the reads it needs). -/
theorem greedyRead_frame {V M : Type}
    (protoM : Nat → Except QErr V) (unm : V → List Nat → DRes M)
    (msize : Nat) (f : Frame) (R' : List Nat)
    (hwf : f.wf msize) (hm32 : msize < 4294967296) :
    ∀ fuel st rd, GInv msize st rd (f.bytes ++ R') →
    st.needed.toNat + f.body.length + 2 ≤ fuel →
    GoodCall protoM unm msize f R' (greedyLoop protoM unm fuel st rd none)
    := by
  have hH : HeaderSize = 5 := rfl
  obtain ⟨hwf1, hwf2⟩ := hwf
  intro fuel
  induction fuel with
  | zero => intro st rd _ hfuel; omega
  | succ fl ih =>
    intro st rd hginv hfuel
    obtain ⟨hinv, hm⟩ := hginv
    by_cases hle : st.needed ≤ 0
    · obtain ⟨herr, hok⟩ := greedyHeader_spec protoM unm msize st rd f R'
        hinv hm ⟨hwf1, hwf2⟩ hm32 hle
      unfold GoodCall
      cases hp : protoM f.mt with
      | error e =>
        have hL : greedyLoop protoM unm (fl + 1) st rd none = .err e := by
          conv_lhs => rw [greedyLoop]
          rw [herr e hp]
        rw [hL]
      | ok v =>
        obtain ⟨st', hinv', hm', hsz', hnd', htot', hptr', hinner⟩ :=
          hok v hp
        by_cases hle2 : st'.needed ≤ 0
        · obtain ⟨st'', hginv'', hbody⟩ :=
            greedyBody_spec unm msize st' rd v f.body R'
              (by rw [hsz']; exact hinv') hsz' hle2
          have hL : greedyLoop protoM unm (fl + 1) st rd none =
              (match unm v f.body with
               | .ok m => GOut.msg m st'' rd
               | .fail e => GOut.err e
               | .panicked => GOut.panicked) := by
            conv_lhs => rw [greedyLoop]
            rw [hinner, if_pos hle2, hbody]
            cases unm v f.body <;> rfl
          cases h : unm v f.body with
          | ok m =>
            have hL2 : greedyLoop protoM unm (fl + 1) st rd none =
                GOut.msg m st'' rd := by rw [hL, h]
            simp only [BodyOut, h, hL2]
            exact ⟨st'', rd, rfl, hginv''⟩
          | fail e =>
            have hL2 : greedyLoop protoM unm (fl + 1) st rd none =
                GOut.err e := by rw [hL, h]
            simp only [BodyOut, h, hL2]
          | panicked =>
            have hL2 : greedyLoop protoM unm (fl + 1) st rd none =
                GOut.panicked := by rw [hL, h]
            simp only [BodyOut, h, hL2]
        · have hsw : greedyLoop protoM unm (fl + 1) st rd none =
              greedyLoop protoM unm (fl + 1) st' rd none := by
            conv_lhs => rw [greedyLoop]
            conv_rhs => rw [greedyLoop]
            rw [show greedyInner protoM unm st = .cont st' by
              rw [hinner, if_neg hle2]]
            rw [show greedyInner protoM unm st' = .cont st' by
              unfold greedyInner; rw [if_neg hle2]]
          have hne : rd.bytes ≠ [] := by
            obtain ⟨_, _, _, _, hRlen', hrd', hnd2⟩ := hinv'
            have hlapp := List.length_append f.body R'
            have hpos : 0 < rd.bytes.length := by
              rw [hrd', List.length_drop]
              omega
            intro hnil
            rw [hnil] at hpos
            simp at hpos
          obtain ⟨n, rd', st3, heq, hn1, hnb, hrdb, hinv3, hm3, hsz3, hnd3⟩
            := greedyLoop_drain_step protoM unm msize f.body.length fl st'
              rd (f.body ++ R') hinv' (by omega) (by omega) hne
          rw [hsw, heq]
          unfold BodyOut
          have hres := greedyLoopB protoM unm msize v f.body R' (by omega)
            fl st3 rd' hinv3 (by rw [hm3]; exact hm')
            (by rw [hsz3]; exact hsz') (by
              rw [hnd3, hnd']
              have hle0 : st.needed ≤ 0 := hle
              omega)
          unfold BodyOut at hres
          exact hres
    · have hfb := frame_bytes_length f
      have hne : rd.bytes ≠ [] := by
        obtain ⟨_, _, _, _, hRlen, hrd, hnd⟩ := hinv
        have hlapp := List.length_append f.bytes R'
        have hpos : 0 < rd.bytes.length := by
          rw [hrd, List.length_drop]
          rw [hH] at hnd
          omega
        intro hnil
        rw [hnil] at hpos
        simp at hpos
      obtain ⟨n, rd', st3, heq, hn1, hnb, hrdb, hinv3, hm3, hsz3, hnd3⟩ :=
        greedyLoop_drain_step protoM unm msize HeaderSize fl st rd
          (f.bytes ++ R') hinv (by omega) (by omega) hne
      rw [heq]
      refine ih st3 rd' ⟨hinv3, by rw [hm3]; exact hm⟩ ?_
      rw [hnd3]
      omega

/-- If the next frame header declares a size larger than the decoder
buffer, greedy mode fails the call with `MessageTooBig` (and never hands
any of that frame's bytes to an unmarshal). -/
theorem greedyLoop_toobig {V M : Type}
    (protoM : Nat → Except QErr V) (unm : V → List Nat → DRes M)
    (msize : Nat) (RB : List Nat)
    (h5 : 5 ≤ RB.length) (hbig : msize < r32 RB 0)
    (hm5 : HeaderSize ≤ msize) :
    ∀ fuel st rd, PInv msize HeaderSize st rd RB → st.m = none →
    st.needed.toNat + 1 ≤ fuel →
    greedyLoop protoM unm fuel st rd none = .err .messageTooBig := by
  have hH : HeaderSize = 5 := rfl
  intro fuel
  induction fuel with
  | zero => intro st rd _ _ hfuel; omega
  | succ fl ih =>
    intro st rd hinv hm hfuel
    by_cases hle : st.needed ≤ 0
    · obtain ⟨hbl, hpt, htm, htake, hRlen, hrd, hnd⟩ := hinv
      have h4 : 4 ≤ st.total - st.ptr := by
        rw [hH] at hnd
        omega
      have hs : r32 st.buffer st.ptr = r32 RB 0 := r32_of_take_eq htake h4
      have hinner : greedyInner protoM unm st = .err .messageTooBig := by
        unfold greedyInner
        rw [if_pos hle, hm]
        dsimp only
        rw [hs]
        rw [if_pos (by omega)]
      conv_lhs => rw [greedyLoop]
      rw [hinner]
    · have hne : rd.bytes ≠ [] := by
        obtain ⟨_, _, _, _, hRlen, hrd, hnd⟩ := hinv
        have hpos : 0 < rd.bytes.length := by
          rw [hrd, List.length_drop]
          rw [hH] at hnd
          omega
        intro hnil
        rw [hnil] at hpos
        simp at hpos
      obtain ⟨n, rd', st3, heq, hn1, hnb, hrdb, hinv3, hm3, hsz3, hnd3⟩ :=
        greedyLoop_drain_step protoM unm msize HeaderSize fl st rd RB hinv
          (by omega) hm5 hne
      rw [heq]
      refine ih st3 rd' hinv3 (by rw [hm3]; exact hm) ?_
      rw [hnd3]
      omega

theorem framesBytes_cons (f : Frame) (fs : List Frame) :
    framesBytes (f :: fs) = f.bytes ++ framesBytes fs := by
  simp [framesBytes]

theorem framesBytes_nil : framesBytes [] = [] := rfl

/-- Greedy mode, run one call per frame plus one final call on the
terminal remnant `T`, decodes exactly the frame sequence and then reports
the terminal's error `eT`. -/
theorem runGreedy_frames {V M : Type}
    (protoM : Nat → Except QErr V) (unm : V → List Nat → DRes M)
    (msize cf : Nat) (eT : QErr) (T : List Nat)
    (hm32 : msize < 4294967296) (hcf : msize + 2 ≤ cf)
    (hT : ∀ st rd, GInv msize st rd T →
      greedyLoop protoM unm cf st rd none = .err eT) :
    ∀ fs, (∀ f ∈ fs, f.wf msize) →
    ∀ st rd, GInv msize st rd (framesBytes fs ++ T) →
    runGreedy protoM unm cf (fs.length + 1) st rd =
      decodeFrames protoM unm eT fs := by
  intro fs
  induction fs with
  | nil =>
    intro _ st rd hginv
    rw [framesBytes_nil, List.nil_append] at hginv
    have hout : Decoder.greedyRead protoM unm cf st rd =
        GOut.err eT := by
      unfold Decoder.greedyRead
      exact hT st rd hginv
    show runGreedy protoM unm cf (0 + 1) st rd = decodeFrames protoM unm eT []
    rw [runGreedy, hout]
    rfl
  | cons f fs ih =>
    intro hwf st rd hginv
    have hwf1 := hwf f (by simp)
    rw [framesBytes_cons, List.append_assoc] at hginv
    have hbudget : st.needed.toNat + f.body.length + 2 ≤ cf := by
      obtain ⟨⟨_, _, _, _, _, _, hnd⟩, _⟩ := hginv
      have hH : HeaderSize = 5 := rfl
      rw [hH] at hnd
      obtain ⟨hwfa, _⟩ := hwf1
      rw [show HeaderSize = 5 from rfl] at hwfa
      omega
    have hgc := greedyRead_frame protoM unm msize f (framesBytes fs ++ T)
      hwf1 hm32 cf st rd hginv hbudget
    show runGreedy protoM unm cf (fs.length + 1 + 1) st rd =
      decodeFrames protoM unm eT (f :: fs)
    rw [runGreedy]
    unfold Decoder.greedyRead
    cases hp : protoM f.mt with
    | error e =>
      simp only [GoodCall, hp] at hgc
      rw [hgc]
      rw [show decodeFrames protoM unm eT (f :: fs) =
        (match protoM f.mt with
         | .error e => RunOut.done [] e
         | .ok v =>
           match unm v f.body with
           | .fail e => RunOut.done [] e
           | .panicked => RunOut.panicked []
           | .ok m => (decodeFrames protoM unm eT fs).consM m) from rfl]
      rw [hp]
    | ok v =>
      simp only [GoodCall, hp] at hgc
      cases hu : unm v f.body with
      | fail e =>
        simp only [BodyOut, hu] at hgc
        rw [hgc]
        rw [show decodeFrames protoM unm eT (f :: fs) =
          (match protoM f.mt with
           | .error e => RunOut.done [] e
           | .ok v =>
             match unm v f.body with
             | .fail e => RunOut.done [] e
             | .panicked => RunOut.panicked []
             | .ok m => (decodeFrames protoM unm eT fs).consM m) from rfl]
        rw [hp]
        dsimp only
        rw [hu]
      | panicked =>
        simp only [BodyOut, hu] at hgc
        rw [hgc]
        rw [show decodeFrames protoM unm eT (f :: fs) =
          (match protoM f.mt with
           | .error e => RunOut.done [] e
           | .ok v =>
             match unm v f.body with
             | .fail e => RunOut.done [] e
             | .panicked => RunOut.panicked []
             | .ok m => (decodeFrames protoM unm eT fs).consM m) from rfl]
        rw [hp]
        dsimp only
        rw [hu]
      | ok m =>
        simp only [BodyOut, hu] at hgc
        obtain ⟨st', rd', hout, hginv'⟩ := hgc
        rw [hout]
        have hrec := ih (by intro g hg; exact hwf g (by simp [hg]))
          st' rd' hginv'
        rw [show decodeFrames protoM unm eT (f :: fs) =
          (match protoM f.mt with
           | .error e => RunOut.done [] e
           | .ok v =>
             match unm v f.body with
             | .fail e => RunOut.done [] e
             | .panicked => RunOut.panicked []
             | .ok m => (decodeFrames protoM unm eT fs).consM m) from rfl]
        rw [hp]
        dsimp only
        rw [hu]
        dsimp only
        rw [hrec]

theorem drop5_w32 (x a : Nat) (rest : List Nat) :
    (w32 x ++ a :: rest).drop 5 = rest := by
  unfold w32
  rfl

/-- `simpleRead` on a stream headed by frame `f`: the header parses to the
frame's type and body length, and the unmarshal verdict on exactly the body
bytes is returned with the rest of the stream. -/
theorem simpleRead_frame {V M : Type} (protoM : Nat → Except QErr V)
    (unm : V → List Nat → DRes M) (f : Frame) (R' : List Nat)
    (hmt : f.mt < 256)
    (h32 : f.body.length + HeaderSize < 4294967296) :
    Decoder.simpleRead protoM unm (f.bytes ++ R') =
      match protoM f.mt with
      | .error e => (.fail e, (f.bytes ++ R').drop 5)
      | .ok v =>
        match unm v f.body with
        | .ok m => (.ok m, R')
        | .fail e => (.fail e, R')
        | .panicked => (.panicked, R') := by
  have hH : HeaderSize = 5 := rfl
  have hfb := frame_bytes_length f
  have hshape := frame_bytes_shape f R'
  have hs : r32 (f.bytes ++ R') 0 = f.body.length + HeaderSize := by
    rw [hshape, r32_w32_append]
    omega
  have hmt4 : (f.bytes ++ R').getD 4 0 = f.mt := by
    rw [hshape, getD4_w32]
    omega
  have hdrop : (f.bytes ++ R').drop 5 = f.body ++ R' := by
    rw [hshape, drop5_w32]
  unfold Decoder.simpleRead
  rw [if_neg (by simp [List.length_append, hfb]; omega)]
  dsimp only
  rw [hs, hmt4]
  cases hp : protoM f.mt with
  | error e => rfl
  | ok v =>
    dsimp only
    have hbl : (f.body.length + HeaderSize + 4294967296 - HeaderSize) %
        4294967296 = f.body.length := by
      rw [hH]
      omega
    rw [hbl, hdrop]
    rw [if_neg (by simp [List.length_append])]
    rw [show (f.body ++ R').take f.body.length = f.body from
      List.take_left f.body R']
    rw [show (f.bytes ++ R').drop (5 + f.body.length) = R' from by
      rw [← List.drop_drop, hdrop, List.drop_left]]

/-- Simple mode, run one call per frame plus one final call at the clean
end of stream, decodes exactly the frame sequence and then reports the
transport error. -/
theorem runSimple_frames {V M : Type} (protoM : Nat → Except QErr V)
    (unm : V → List Nat → DRes M) :
    ∀ fs : List Frame,
    (∀ f ∈ fs, f.mt < 256 ∧ f.body.length + HeaderSize < 4294967296) →
    runSimple protoM unm (fs.length + 1) (framesBytes fs) =
      decodeFrames protoM unm .ioError fs := by
  intro fs
  induction fs with
  | nil => intro _; rfl
  | cons f fs ih =>
    intro hwf
    obtain ⟨hmt, h32⟩ := hwf f (by simp)
    have hsr := simpleRead_frame protoM unm f (framesBytes fs) hmt h32
    show runSimple protoM unm (fs.length + 1 + 1)
        (framesBytes (f :: fs)) = decodeFrames protoM unm .ioError (f :: fs)
    rw [runSimple]
    rw [framesBytes_cons, hsr]
    cases hp : protoM f.mt with
    | error e =>
      dsimp only
      rw [show decodeFrames protoM unm .ioError (f :: fs) =
        (match protoM f.mt with
         | .error e => RunOut.done [] e
         | .ok v =>
           match unm v f.body with
           | .fail e => RunOut.done [] e
           | .panicked => RunOut.panicked []
           | .ok m => (decodeFrames protoM unm .ioError fs).consM m)
        from rfl]
      rw [hp]
    | ok v =>
      cases hu : unm v f.body with
      | ok m =>
        dsimp only
        rw [show decodeFrames protoM unm .ioError (f :: fs) =
          (match protoM f.mt with
           | .error e => RunOut.done [] e
           | .ok v =>
             match unm v f.body with
             | .fail e => RunOut.done [] e
             | .panicked => RunOut.panicked []
             | .ok m => (decodeFrames protoM unm .ioError fs).consM m)
          from rfl]
        rw [hp]
        dsimp only
        rw [hu]
        dsimp only
        rw [ih (by intro g hg; exact hwf g (by simp [hg]))]
      | fail e =>
        dsimp only
        rw [show decodeFrames protoM unm .ioError (f :: fs) =
          (match protoM f.mt with
           | .error e => RunOut.done [] e
           | .ok v =>
             match unm v f.body with
             | .fail e => RunOut.done [] e
             | .panicked => RunOut.panicked []
             | .ok m => (decodeFrames protoM unm .ioError fs).consM m)
          from rfl]
        rw [hp]
        dsimp only
        rw [hu]
      | panicked =>
        dsimp only
        rw [show decodeFrames protoM unm .ioError (f :: fs) =
          (match protoM f.mt with
           | .error e => RunOut.done [] e
           | .ok v =>
             match unm v f.body with
             | .fail e => RunOut.done [] e
             | .panicked => RunOut.panicked []
             | .ok m => (decodeFrames protoM unm .ioError fs).consM m)
          from rfl]
        rw [hp]
        dsimp only
        rw [hu]

/-- After `Reset`, the between-calls invariant holds with the whole stream
still in the reader. -/
theorem GInv_reset (V : Type) (msize : Nat) (RB frag : List Nat) :
    GInv msize (Decoder.reset V msize) ⟨RB, frag⟩ RB := by
  refine ⟨⟨?_, ?_, ?_, ?_, ?_, ?_, ?_⟩, rfl⟩
  · simp [Decoder.reset]
  · exact Nat.le_refl 0
  · simp [Decoder.reset]
  · rfl
  · simp [Decoder.reset]
  · rfl
  · rfl

/-- At a clean end of stream, a greedy call drains nothing and reports the
transport error. -/
theorem greedyLoop_eof {V M : Type}
    (protoM : Nat → Except QErr V) (unm : V → List Nat → DRes M)
    (msize cf : Nat) (hm5 : HeaderSize ≤ msize) (hcf : 2 ≤ cf) :
    ∀ st rd, GInv msize st rd ([] : List Nat) →
    greedyLoop protoM unm cf st rd none = .err .ioError := by
  intro st rd hg
  obtain ⟨hinv, hm⟩ := hg
  have hrd : rd.bytes = [] := by
    obtain ⟨_, _, _, _, _, hrd, _⟩ := hinv
    rw [hrd]
    simp
  refine greedyLoop_incomplete protoM unm msize HeaderSize [] cf st rd hinv
    (by simp [HeaderSize]) hm5 ?_
  rw [hrd]
  simp
  omega

/-- If the table accepts every frame's type and the unmarshals succeed,
the reference decode yields one message per frame and then `eT`. -/
theorem decodeFrames_all_ok {V M : Type}
    (protoM : Nat → Except QErr V) (unm : V → List Nat → DRes M)
    (eT : QErr) :
    ∀ fs : List Frame,
    (∀ f ∈ fs, ∃ v m, protoM f.mt = .ok v ∧ unm v f.body = .ok m) →
    ∃ ms : List M, decodeFrames protoM unm eT fs = .done ms eT ∧
      ms.length = fs.length := by
  intro fs
  induction fs with
  | nil => intro _; exact ⟨[], rfl, rfl⟩
  | cons f fs ih =>
    intro hall
    obtain ⟨v, m, hp, hu⟩ := hall f (by simp)
    obtain ⟨ms, hdf, hlen⟩ := ih (by intro g hg; exact hall g (by simp [hg]))
    refine ⟨m :: ms, ?_, by simp [hlen]⟩
    rw [show decodeFrames protoM unm eT (f :: fs) =
      (match protoM f.mt with
       | .error e => RunOut.done [] e
       | .ok v =>
         match unm v f.body with
         | .fail e => RunOut.done [] e
         | .panicked => RunOut.panicked []
         | .ok m => (decodeFrames protoM unm eT fs).consM m) from rfl]
    rw [hp]
    dsimp only
    rw [hu]
    dsimp only
    rw [hdf]
    rfl

/-- C3 (amended): for any input stream that is a concatenation of frames
whose framed size fits within the configured message size — and any
transport fragmentation pattern — the greedy decoding mode and the simple
decoding mode of `Decoder.ReadMessage` return the same sequence of
messages. (The unrestricted claim is refuted by
`greedy_simple_disagree_oversized`: on an oversized frame the modes
disagree.) -/
theorem greedy_simple_agree {V M : Type}
    (protoM : Nat → Except QErr V) (unm : V → List Nat → DRes M)
    (msize cf : Nat) (frag : List Nat) (fs : List Frame)
    (hwf : ∀ f ∈ fs, f.wf msize)
    (hm32 : msize < 4294967296)
    (hm5 : HeaderSize ≤ msize)
    (hcf : msize + 2 ≤ cf) :
    runGreedy protoM unm cf (fs.length + 1) (Decoder.reset V msize)
      ⟨framesBytes fs, frag⟩ =
      runSimple protoM unm (fs.length + 1) (framesBytes fs) := by
  rw [runSimple_frames protoM unm fs (by
    intro f hf
    obtain ⟨h1, h2⟩ := hwf f hf
    exact ⟨h2, by omega⟩)]
  refine runGreedy_frames protoM unm msize cf .ioError [] hm32 hcf
    (by
      intro st rd hg
      exact greedyLoop_eof protoM unm msize cf hm5 (by omega) st rd hg)
    fs hwf (Decoder.reset V msize) ⟨framesBytes fs, frag⟩ ?_
  rw [List.append_nil]
  exact GInv_reset V msize (framesBytes fs) frag

/-- C5: in greedy mode, a frame whose declared 4-byte size exceeds the
configured message size makes the decoder return `MessageTooBig`: the run
delivers exactly the reference decode of the conforming frames before it
and then the `MessageTooBig` error, for every body unmarshal `unm`
uniformly — so none of the oversized frame's bytes are consumed as a new
message and no unmarshal is invoked on them. -/
theorem greedy_rejects_oversized {V M : Type}
    (protoM : Nat → Except QErr V) (unm : V → List Nat → DRes M)
    (msize cf : Nat) (frag : List Nat) (fs : List Frame) (T : List Nat)
    (hwf : ∀ f ∈ fs, f.wf msize)
    (hm32 : msize < 4294967296)
    (hm5 : HeaderSize ≤ msize)
    (hcf : msize + 2 ≤ cf)
    (h5T : 5 ≤ T.length)
    (hbig : msize < r32 T 0) :
    runGreedy protoM unm cf (fs.length + 1) (Decoder.reset V msize)
      ⟨framesBytes fs ++ T, frag⟩ =
      decodeFrames protoM unm .messageTooBig fs := by
  refine runGreedy_frames protoM unm msize cf .messageTooBig T hm32 hcf
    (by
      intro st rd hg
      obtain ⟨hinv, hm⟩ := hg
      refine greedyLoop_toobig protoM unm msize T h5T hbig hm5 cf st rd
        hinv hm ?_
      obtain ⟨_, _, _, _, _, _, hnd⟩ := hinv
      rw [show HeaderSize = 5 from rfl] at hnd hm5
      omega)
    fs hwf (Decoder.reset V msize) ⟨framesBytes fs ++ T, frag⟩
    (GInv_reset V msize (framesBytes fs ++ T) frag)

/-- C8: in greedy mode a transport read error is surfaced only after every
message of the stream has been returned: a run over a stream of
well-formed, successfully decoding frames followed by end-of-input returns
one message per frame first and reports the I/O error only on the final
call. -/
theorem greedy_error_after_messages {V M : Type}
    (protoM : Nat → Except QErr V) (unm : V → List Nat → DRes M)
    (msize cf : Nat) (frag : List Nat) (fs : List Frame)
    (hwf : ∀ f ∈ fs, f.wf msize)
    (hm32 : msize < 4294967296)
    (hm5 : HeaderSize ≤ msize)
    (hcf : msize + 2 ≤ cf)
    (hall : ∀ f ∈ fs, ∃ v m, protoM f.mt = .ok v ∧ unm v f.body = .ok m) :
    ∃ ms : List M, ms.length = fs.length ∧
      runGreedy protoM unm cf (fs.length + 1) (Decoder.reset V msize)
        ⟨framesBytes fs, frag⟩ = .done ms .ioError := by
  obtain ⟨ms, hdf, hlen⟩ := decodeFrames_all_ok protoM unm .ioError fs hall
  refine ⟨ms, hlen, ?_⟩
  rw [← hdf]
  refine runGreedy_frames protoM unm msize cf .ioError [] hm32 hcf
    (by
      intro st rd hg
      exact greedyLoop_eof protoM unm msize cf hm5 (by omega) st rd hg)
    fs hwf (Decoder.reset V msize) ⟨framesBytes fs, frag⟩ ?_
  rw [List.append_nil]
  exact GInv_reset V msize (framesBytes fs) frag

theorem simpleRead_size_underflow {V M : Type}
    (protoM : Nat → Except QErr V) (unm : V → List Nat → DRes M)
    (v : V) (hp : protoM 100 = .ok v) :
    ∀ rest : List Nat, rest.length < 4294967295 →
    Decoder.simpleRead protoM unm ([4, 0, 0, 0, 100] ++ rest) =
      (.fail .ioError, []) := by
  intro rest hlen
  unfold Decoder.simpleRead
  have hc : ¬(([4, 0, 0, 0, 100] ++ rest : List Nat).length < 5) := by simp
  rw [if_neg hc]
  dsimp only
  have hg : (([4, 0, 0, 0, 100] ++ rest : List Nat)).getD 4 0 = 100 := rfl
  rw [hg, hp]
  dsimp only
  have hr : r32 ([4, 0, 0, 0, 100] ++ rest : List Nat) 0 = 4 := rfl
  rw [hr]
  have ha : (4 + 4294967296 - HeaderSize) % 4294967296 = 4294967295 := rfl
  rw [ha]
  have hif : ((([4, 0, 0, 0, 100] ++ rest : List Nat)).drop 5).length <
      4294967295 := by
    simp
    omega
  rw [if_pos hif]

/-- C3 is false as stated: on a stream holding one frame larger than the
configured message size, simple mode decodes and returns the message while
greedy mode returns no message at all (it rejects with `MessageTooBig`), so
the two modes do not return the same message sequence for every stream. -/
theorem greedy_simple_disagree_oversized :
    runSimple MessageTypeToMessage unmBase 2 (framesBytes [bigFrame]) ≠
      runGreedy MessageTypeToMessage unmBase 10 2
        (Decoder.reset MsgKind 8) ⟨framesBytes [bigFrame], []⟩ := by
  decide

theorem greedy_simple_agree_witness :
    (∀ f ∈ [bigFrame], f.wf 16) ∧
    runGreedy MessageTypeToMessage unmBase 18 2 (Decoder.reset MsgKind 16)
        ⟨framesBytes [bigFrame], [99]⟩ =
      runSimple MessageTypeToMessage unmBase 2 (framesBytes [bigFrame]) :=
  ⟨by decide,
    greedy_simple_agree MessageTypeToMessage unmBase 16 18 [99] [bigFrame]
      (by decide) (by decide) (by decide) (by decide)⟩

theorem greedy_rejects_oversized_witness :
    8 < r32 bigFrame.bytes 0 ∧
    runGreedy MessageTypeToMessage unmBase 10 1 (Decoder.reset MsgKind 8)
        ⟨framesBytes [] ++ bigFrame.bytes, []⟩ =
      decodeFrames MessageTypeToMessage unmBase .messageTooBig [] :=
  ⟨by decide,
    greedy_rejects_oversized MessageTypeToMessage unmBase 8 10 [] []
      bigFrame.bytes (by decide) (by decide) (by decide) (by decide)
      (by decide) (by decide)⟩

theorem greedy_error_after_messages_witness :
    ∃ ms : List Msg, ms.length = 1 ∧
      runGreedy MessageTypeToMessage unmBase 18 2 (Decoder.reset MsgKind 16)
        ⟨framesBytes [bigFrame], [99]⟩ = .done ms .ioError :=
  greedy_error_after_messages MessageTypeToMessage unmBase 16 18 [99]
    [bigFrame] (by decide) (by decide) (by decide) (by decide)
    (by
      intro f hf
      simp only [List.mem_singleton] at hf
      subst hf
      exact ⟨.versionResponse, .versionResponse ⟨65535, 8192, [57, 80]⟩,
        by decide, by decide⟩)

/-- C7: `Encoder.WriteMessage` returns `MessageTooBig` whenever the fully
framed size (5 + body length) exceeds the configured `MessageSize`, and in
that case — as in the unknown-type case — writes nothing to the underlying
writer, leaving the encoder usable (pure rejection). -/
theorem writeMessage_too_big_pure_rejection (mt : Nat)
    (msgbuf written : List Nat) (msize : Nat)
    (h : msize < msgbuf.length + HeaderSize) :
    Encoder.writeMessage (.ok mt) msgbuf msize written =
      (.error .messageTooBig, written) ∧
    ∀ e, Encoder.writeMessage (.error e) msgbuf msize written =
      (.error e, written) := by
  constructor
  · unfold Encoder.writeMessage
    dsimp only
    rw [if_pos h]
  · intro e
    rfl

theorem writeMessage_too_big_pure_rejection_witness :
    8 < ([1, 2, 3, 4, 5, 6] : List Nat).length + HeaderSize ∧
    Encoder.writeMessage (.ok 101) [1, 2, 3, 4, 5, 6] 8 [9, 9] =
      (.error .messageTooBig, [9, 9]) :=
  ⟨by decide,
    (writeMessage_too_big_pure_rejection 101 [1, 2, 3, 4, 5, 6] [9, 9] 8
      (by decide)).1⟩

/-- C6 is false of the code: neither decoding path validates `size ≥ 5`.
A frame declaring `size = 4` is not rejected for its size; instead the
body length is computed as the wrapping uint32 difference `4 − 5 =
4294967295`, so simple mode consumes the entire stream (however much
follows) trying to read a ~4 GiB body and fails with the transport error,
and greedy mode likewise drains the transport and fails with the deferred
read error. -/
theorem frame_size_below_five_not_rejected :
    (∀ rest : List Nat, rest.length < 4294967295 →
      Decoder.simpleRead MessageTypeToMessage unmBase
        ([4, 0, 0, 0, 100] ++ rest) = (.fail .ioError, [])) ∧
    Decoder.greedyRead MessageTypeToMessage unmBase 4
      (Decoder.reset MsgKind 8) ⟨[4, 0, 0, 0, 100], [99]⟩ =
      .err .ioError := by
  constructor
  · exact simpleRead_size_underflow MessageTypeToMessage unmBase
      .versionRequest (by decide)
  · rfl

theorem frame_size_below_five_not_rejected_witness :
    ([7, 7, 7] : List Nat).length < 4294967295 ∧
    Decoder.simpleRead MessageTypeToMessage unmBase
      ([4, 0, 0, 0, 100] ++ [7, 7, 7]) = (.fail .ioError, []) :=
  ⟨by decide,
    frame_size_below_five_not_rejected.1 [7, 7, 7] (by decide)⟩
